import Mathlib

/-!
# Verification of the opencode-service instance pool, protocol bridge and translator

Shallow embedding of the core of `opencode-service-ts`:

* `OpencodeExecutorService` (instance pool, port allocator, protocol bridge)
  from `src/executor/opencode-executor.service.ts`;
* `ChatService` (completion translator) from `src/chat/chat.service.ts`;
* the wire types from `src/chat/chat.types.ts` / `src/workspace/workspace.types.ts`.

Pure TypeScript functions become Lean functions.  Stateful code is modelled by
explicit state passing over an `ExecState` record together with an `Action`
trace recording the observable side effects (file writes, server create/close,
timer arm/clear, session create/prompt/delete, directory removal).  The
behaviour of the external opencode runtime (session creation outcome, the
event stream with arrival timestamps, prompt/delete failures, port
availability) is a `Runtime` parameter.  JavaScript `Map`s become association
lists, `Date.now()` an explicit `Nat` clock, and `setTimeout` handles an
explicit `Option` deadline per pooled instance.
-/

namespace Opencode

/-- Minimal JSON value type standing for TypeScript `unknown` / JSON data
(tool-call `metadata`, `JSON.stringify` inputs). -/
inductive Json where
  | null : Json
  | bool (b : Bool) : Json
  | num (n : Int) : Json
  | str (s : String) : Json
  | arr (elems : List Json) : Json
  | obj (fields : List (String × Json)) : Json

/-- Escape of a JSON string body: `JSON.stringify` escapes backslash and quote
(control-character escapes are not needed by any claim and are left as-is). -/
def jsonEscapeChar (c : Char) : String :=
  if c = '\\' then "\\\\"
  else if c = '"' then "\\\""
  else String.mk [c]

def jsonEscape (s : String) : String :=
  String.join (s.toList.map jsonEscapeChar)

mutual
/-- `JSON.stringify` on `Json` values (compact form, as the single-argument
`JSON.stringify(tc.input)` call in `chat.service.ts` produces). -/
def Json.stringify : Json → String
  | .null => "null"
  | .bool true => "true"
  | .bool false => "false"
  | .num n => toString n
  | .str s => "\"" ++ jsonEscape s ++ "\""
  | .arr elems => "[" ++ Json.stringifyList elems ++ "]"
  | .obj fields => "\x7b" ++ Json.stringifyFields fields ++ "\x7d"

def Json.stringifyList : List Json → String
  | [] => ""
  | [x] => Json.stringify x
  | x :: xs => Json.stringify x ++ "," ++ Json.stringifyList xs

def Json.stringifyFields : List (String × Json) → String
  | [] => ""
  | [(k, v)] => "\"" ++ jsonEscape k ++ "\":" ++ Json.stringify v
  | (k, v) :: xs =>
      "\"" ++ jsonEscape k ++ "\":" ++ Json.stringify v ++ "," ++ Json.stringifyFields xs
end

/-! ## Data model (workspace.types.ts / tenant.types.ts / chat.types.ts) -/

/-- `ModelSelection` (chat.types.ts), with the optional `agentId` used by
`chat.service.ts` / the executor's prompt dispatch. -/
structure ModelSelection where
  providerId : String
  modelId : String
  agentId : Option String := none
deriving DecidableEq, Repr

/-- `ModelConfig` (tenant.types.ts): a provider/model pair. -/
structure ModelConfig where
  providerId : String
  modelId : String
deriving DecidableEq, Repr

/-- `ProviderConfig` (tenant.types.ts): per-provider credentials. -/
structure ProviderConfig where
  apiKey : String
deriving DecidableEq, Repr

/-- `ToolDefinition` (workspace.types.ts). -/
structure ToolDefinition where
  name : String
  source : String
deriving DecidableEq, Repr

/-- `AgentDefinition` (workspace.types.ts). -/
structure AgentDefinition where
  name : String
  content : String
deriving DecidableEq, Repr

/-- `WorkspaceConfig` (workspace.types.ts).  `Record<string,...>` maps become
association lists in `Object.entries` order. -/
structure WorkspaceConfig where
  tenantId : String
  sessionId : Option String := none
  providers : List (String × ProviderConfig) := []
  defaultModel : Option ModelConfig := none
  requestModel : Option ModelSelection := none
  tools : List ToolDefinition
  agents : List AgentDefinition
  secrets : List (String × String) := []

/-- The slice of `TenantConfig` (tenant.types.ts) used by `parseModel`:
the provider map and the optional default model. -/
structure TenantConfig where
  providers : List (String × ProviderConfig) := []
  defaultModel : Option ModelConfig := none

/-- `ChatMessage` (chat.types.ts) as consumed by `buildPrompt`. -/
structure ChatMessage where
  role : String
  content : String
deriving DecidableEq, Repr

/-- A recorded tool call (`ToolCallResult` in chat.types.ts): the executor
pushes `name := part.tool`, `input := part.metadata ?? {}`,
`output := part.state`. -/
structure ToolCallResult where
  name : String
  input : Json
  output : Option String

/-- `ExecutorResult` (chat.types.ts). -/
structure ExecutorResult where
  content : String
  toolCalls : List ToolCallResult

/-- `StreamChunk` (chat.types.ts): the tagged union
`{type: "text" | "tool_call" | "done"}` yielded by `executeStreaming`. -/
inductive StreamChunk where
  | text (content : String)
  | toolCall (tc : ToolCallResult)
  | done

/-! ## parseModel (chat.service.ts) -/

/-- `String.prototype.indexOf` for a single character, as an optional index
(`-1` becomes `none`). -/
def indexOfAux (c : Char) : List Char → Option Nat
  | [] => none
  | x :: xs => if x = c then some 0 else (indexOfAux c xs).map (· + 1)

/-- `String.prototype.lastIndexOf` for a single character, as an optional
index (`-1` becomes `none`). -/
def lastIndexOfAux (c : Char) : List Char → Option Nat
  | [] => none
  | x :: xs =>
    match lastIndexOfAux c xs with
    | some i => some (i + 1)
    | none => if x = c then some 0 else none

/-- `ChatService.parseModel`: split an optional `@agent` suffix at the
rightmost `@`; then split provider and model at the first `/` of the
remaining part; a part without `/` falls back to the tenant's default model's
provider, or failing that to the first configured provider key, or `""`. -/
def parseModel (model : String) (tenant : TenantConfig) : ModelSelection :=
  let cs := model.toList
  let split :=
    match lastIndexOfAux '@' cs with
    | some i => (cs.take i, some (String.mk (cs.drop (i + 1))))
    | none => (cs, none)
  let modelPart := split.1
  let agentId := split.2
  match indexOfAux '/' modelPart with
  | some j =>
      { providerId := String.mk (modelPart.take j)
        modelId := String.mk (modelPart.drop (j + 1))
        agentId := agentId }
  | none =>
    match tenant.defaultModel with
    | some dm => { providerId := dm.providerId, modelId := String.mk modelPart, agentId := agentId }
    | none =>
        { providerId := ((tenant.providers.head?).map Prod.fst).getD ""
          modelId := String.mk modelPart
          agentId := agentId }

/-! ## computeInstanceKey (opencode-executor.service.ts)

The source computes `` `${tenantId}:${hash}` `` where `hash` is the first 12
hex chars of the sha256 of `JSON.stringify({tools: names.sort()})`.  The hash
step is abstracted to the (injective) fingerprint itself: the key is modelled
as the pair of the tenant id and the sorted list of tool names, preserving
exactly what the key depends on.  `Array.prototype.sort()` on strings is
lexicographic code-unit comparison, modelled by insertion sort under the
computable comparator `stringLeB` below. -/

/-- Pool key: tenant id paired with the sorted tool-name fingerprint. -/
abbrev InstanceKey := String × List String

/-- Lexicographic code-unit comparison of two character lists, as the
default JS `Array.prototype.sort()` comparator orders strings. -/
def codeUnitLe : List Char → List Char → Bool
  | [], _ => true
  | _ :: _, [] => false
  | a :: as, b :: bs =>
    if a.toNat < b.toNat then true
    else if b.toNat < a.toNat then false
    else codeUnitLe as bs

/-- String ordering used by `names.sort()`. -/
def stringLeB (a b : String) : Bool := codeUnitLe a.data b.data

/-- `computeInstanceKey(tenantId, config)`. -/
def computeInstanceKey (tenantId : String) (config : WorkspaceConfig) : InstanceKey :=
  (tenantId, (config.tools.map (·.name)).insertionSort (fun a b => stringLeB a b = true))

/-! ## Association-list model of the JS `Map` of pooled instances -/

section AList

variable {α β : Type} [DecidableEq α]

/-- `Map.prototype.get`. -/
def lookupA : List (α × β) → α → Option β
  | [], _ => none
  | (k, v) :: rest, key => if k = key then some v else lookupA rest key

/-- In-place value update for an existing key (mutation of the stored record,
as `touchInstance` mutates the `PooledInstance` in the map). -/
def updateA : List (α × β) → α → β → List (α × β)
  | [], _, _ => []
  | (k, v') :: rest, key, v =>
    if k = key then (key, v) :: updateA rest key v else (k, v') :: updateA rest key v

/-- `Map.prototype.delete`. -/
def removeA : List (α × β) → α → List (α × β)
  | [], _ => []
  | (k, v') :: rest, key =>
    if k = key then removeA rest key else (k, v') :: removeA rest key

end AList

/-! ## Pool state, side-effect trace, runtime environment -/

/-- `PooledInstance` (opencode-executor.service.ts): the running instance
handle is represented by its observable identity (port, workspace path);
the `NodeJS.Timeout` handle becomes the armed timer's absolute deadline. -/
structure PooledInstance where
  port : Nat
  workspacePath : String
  lastUsed : Nat
  idleTimer : Option Nat
deriving DecidableEq, Repr

/-- Mutable state of `OpencodeExecutorService`: the instance map and the
wrapping port counter (initialised to 14096 in the source). -/
structure ExecState where
  instances : List (InstanceKey × PooledInstance)
  nextPort : Nat
deriving DecidableEq, Repr

/-- Service construction constants: `idleTimeoutMs` (from config) and the
base directory for workspaces. -/
structure PoolConfig where
  idleTimeoutMs : Nat
  baseDir : String
deriving DecidableEq, Repr

/-- Observable side effects of the executor, in program order. -/
inductive Action where
  /-- `fs.mkdir` of the `.opencode/agent` and `.opencode/tool` dirs. -/
  | mkdirWorkspace (ws : String)
  /-- write of `.opencode/tool/<name>.ts`. -/
  | writeToolFile (ws name source : String)
  /-- write of `.opencode/agent/<name>.md`. -/
  | writeAgentFile (ws name content : String)
  /-- write of `opencode.json`; the payload is the optional `model` entry. -/
  | writeConfigFile (ws : String) (model : Option String)
  /-- bind-then-release probe of a candidate port (`isPortAvailable`). -/
  | probePort (port : Nat) (ok : Bool)
  /-- `createOpencode({hostname, port, ...})` started in `ws`. -/
  | createServer (port : Nat) (ws : String)
  /-- `clearTimeout` of the armed idle timer of `key`. -/
  | clearIdleTimer (key : InstanceKey)
  /-- `setTimeout` arming the idle timer of `key` for the given deadline. -/
  | armIdleTimer (key : InstanceKey) (deadline : Nat)
  /-- `instance.server.close()`. -/
  | closeServer (port : Nat) (ws : String)
  /-- `fs.rm(ws, {recursive, force})` (attempt; its own errors are caught). -/
  | removeDir (ws : String)
  /-- `client.auth.set` for one provider, scoped to the workspace dir. -/
  | setCredential (providerId dir : String)
  /-- `client.session.create` call. -/
  | sessionCreateAttempt
  /-- `client.session.promptAsync` with the composed prompt and model. -/
  | promptSend (sessionId prompt providerID modelID : String) (agent : Option String)
  /-- `client.session.delete` call (`ok := false` when the runtime rejects;
  the rejection is swallowed by `.catch(() => \x7b\x7d)`). -/
  | sessionDeleteAttempt (sessionId : String) (ok : Bool)
deriving DecidableEq, Repr

/-- Properties of a `message.part.updated` event (`event.properties.part`). -/
structure PartInfo where
  type : Option String := none
  tool : Option String := none
  metadata : Option Json := none
  state : Option String := none

/-- Properties of a `session.error` event's `error` object. -/
structure SessionErrorInfo where
  message : Option String := none
  dataMessage : Option String := none

/-- Events read from `client.event.subscribe()`.  Only the fields inspected
by the consumption loop are modelled; every other event shape is `other`. -/
inductive Event where
  | messagePartUpdated (delta : Option String) (part : Option PartInfo)
  | sessionIdle (sessionID : Option String)
  | sessionError (sessionID : Option String) (error : Option SessionErrorInfo)
  | other

/-- Errors raised by `execute` (each a `throw new Error(...)` site in the
source; the `session.error` case carries the raw error object — the
message-extraction of `parseSessionError` is not load-bearing for any
claim and is not modelled). -/
inductive ExecError where
  | portExhausted (msg : String)
  | sessionCreateFailed (detail : String)
  | promptDispatchFailed
  | responseTimeout
  | upstreamSessionError (error : Option SessionErrorInfo)

/-- Behaviour of the external opencode runtime for one request, plus the OS
port-availability oracle. -/
structure Runtime where
  /-- `net` bind probe outcome per port. -/
  portAvailable : Nat → Bool
  /-- outcome of `client.session.create`: `.ok id` when `data` is present,
  `.error detail` when not. -/
  sessionCreate : Except String String
  /-- whether `client.session.promptAsync` rejects. -/
  promptFails : Bool
  /-- the subscribed event stream with absolute arrival times. -/
  events : List (Nat × Event)
  /-- whether `client.session.delete` rejects. -/
  deleteFails : Bool

/-! ## Port allocation (`findAvailablePort` / `isPortAvailable`) -/

/-- One step of the wrapping counter: `this.nextPort++` followed by
`if (this.nextPort > 15000) this.nextPort = 14096` leaves the counter at
this value after drawing `p`. -/
def advancePort (p : Nat) : Nat :=
  if p + 1 > 15000 then 14096 else p + 1

/-- The candidate ports drawn when the counter starts at `next` and `n`
draws are made (declarative mirror of the loop's draw sequence). -/
def portCandidates (next : Nat) : Nat → List Nat
  | 0 => []
  | n + 1 => next :: portCandidates (advancePort next) n

/-- The `for (attempt ...)` loop of `findAvailablePort`: returns the chosen
port (`none` when all attempts fail), the final counter value, and the
probe trace. -/
def findAvailablePortAux (avail : Nat → Bool) :
    Nat → Nat → Option Nat × Nat × List Action
  | next, 0 => (none, next, [])
  | next, n + 1 =>
    let port := next
    let next' := advancePort next
    if avail port then (some port, next', [.probePort port true])
    else
      let r := findAvailablePortAux avail next' n
      (r.1, r.2.1, .probePort port false :: r.2.2)

/-- `findAvailablePort(maxAttempts = 20)` on a counter value `next`:
`.ok port` or the port-exhaustion error, with the final counter value and
the probe trace. -/
def findAvailablePort (avail : Nat → Bool) (next : Nat) (maxAttempts : Nat := 20) :
    Except ExecError Nat × Nat × List Action :=
  match findAvailablePortAux avail next maxAttempts with
  | (some port, next', tr) => (.ok port, next', tr)
  | (none, next', tr) =>
      (.error (.portExhausted
        ("Could not find available port after " ++ toString maxAttempts ++ " attempts")),
        next', tr)

/-! ## Workspace materialization -/

/-- `path.join(this.baseDir, instanceKey.replace(":", "-"))`, with the hash
component abstracted as in `computeInstanceKey`: the path is a string
determined by the key. -/
def workspacePathFor (cfg : PoolConfig) (key : InstanceKey) : String :=
  cfg.baseDir ++ "/" ++ key.1 ++ "-" ++ String.intercalate "," key.2

/-- The `model` entry of `opencode.json`: `requestModel` overrides
`defaultModel`, rendered as `provider/model`. -/
def configModelString (config : WorkspaceConfig) : Option String :=
  match config.requestModel with
  | some m => some (m.providerId ++ "/" ++ m.modelId)
  | none =>
    match config.defaultModel with
    | some m => some (m.providerId ++ "/" ++ m.modelId)
    | none => none

/-- `writeTools`: one `.opencode/tool/<name>.ts` file per tool. -/
def writeTools (ws : String) (tools : List ToolDefinition) : List Action :=
  tools.map fun t => .writeToolFile ws t.name t.source

/-- `writeAgents`: one `.opencode/agent/<name>.md` file per agent. -/
def writeAgents (ws : String) (agents : List AgentDefinition) : List Action :=
  agents.map fun a => .writeAgentFile ws a.name a.content

/-- `createWorkspace`: directories, tools, agents, `opencode.json`. -/
def createWorkspace (cfg : PoolConfig) (key : InstanceKey) (config : WorkspaceConfig) :
    String × List Action :=
  let ws := workspacePathFor cfg key
  (ws,
    .mkdirWorkspace ws ::
      (writeTools ws config.tools ++ writeAgents ws config.agents ++
        [.writeConfigFile ws (configModelString config)]))

/-! ## Pool operations -/

/-- `touchInstance`: refresh `lastUsed`, clear any armed idle timer, arm a
new one for `idleTimeoutMs` from now.  A missing key is a no-op. -/
def touchInstance (cfg : PoolConfig) (st : ExecState) (key : InstanceKey) (now : Nat) :
    ExecState × List Action :=
  match lookupA st.instances key with
  | none => (st, [])
  | some pi =>
    let pi' : PooledInstance :=
      { pi with lastUsed := now, idleTimer := some (now + cfg.idleTimeoutMs) }
    ({ st with instances := updateA st.instances key pi' },
      (match pi.idleTimer with
        | some _ => [Action.clearIdleTimer key]
        | none => []) ++ [Action.armIdleTimer key (now + cfg.idleTimeoutMs)])

/-- `shutdownInstance`: clear the timer, close the server, deregister the
key, best-effort remove the workspace directory.  Idempotent: a missing key
is a no-op. -/
def shutdownInstance (st : ExecState) (key : InstanceKey) : ExecState × List Action :=
  match lookupA st.instances key with
  | none => (st, [])
  | some pi =>
    ({ st with instances := removeA st.instances key },
      (match pi.idleTimer with
        | some _ => [Action.clearIdleTimer key]
        | none => []) ++
        [Action.closeServer pi.port pi.workspacePath, Action.removeDir pi.workspacePath])

/-- The `setTimeout` callback armed by `touchInstance`: when it fires (the
deadline is reached with the timer never having been cleared or re-armed),
it runs `shutdownInstance` for the key. -/
def fireIdleTimer (st : ExecState) (key : InstanceKey) : ExecState × List Action :=
  shutdownInstance st key

/-- `getOrCreateInstance`: on hit, rewrite the agent files of the live
workspace and return the existing handle; on miss, create the workspace,
find a port, start a new instance there and register it. -/
def getOrCreateInstance (cfg : PoolConfig) (avail : Nat → Bool) (now : Nat)
    (st : ExecState) (tenantId : String) (config : WorkspaceConfig) :
    Except ExecError PooledInstance × ExecState × List Action :=
  let key := computeInstanceKey tenantId config
  match lookupA st.instances key with
  | some existing =>
      (.ok existing, st, writeAgents existing.workspacePath config.agents)
  | none =>
    let ws := (createWorkspace cfg key config).1
    let wsActs := (createWorkspace cfg key config).2
    match findAvailablePort avail st.nextPort 20 with
    | (.error e, next', probes) => (.error e, { st with nextPort := next' }, wsActs ++ probes)
    | (.ok port, next', probes) =>
      let pi : PooledInstance :=
        { port := port, workspacePath := ws, lastUsed := now, idleTimer := none }
      (.ok pi,
        { instances := st.instances ++ [(key, pi)], nextPort := next' },
        wsActs ++ probes ++ [.createServer port ws])

/-! ## Protocol bridge (`execute`, event consumption) -/

/-- `msg.role.charAt(0).toUpperCase() + msg.role.slice(1)`. -/
def capitalize (s : String) : String :=
  match s.toList with
  | [] => ""
  | c :: cs => String.mk (c.toUpper :: cs)

/-- `buildPrompt`: one `Role: content` line per message, blank line between
turns. -/
def buildPrompt (messages : List ChatMessage) : String :=
  String.intercalate "\n\n" (messages.map fun m => capitalize m.role ++ ": " ++ m.content)

/-- JavaScript truthiness of an optional string (`undefined` and `""` are
falsy). -/
def truthy : Option String → Bool
  | none => false
  | some s => s ≠ ""

/-- The fixed wall-clock response budget (`RESPONSE_TIMEOUT = 30000`). -/
def responseBudgetMs : Nat := 30000

/-- `part?.type` / `part?.tool` / … optional chaining. -/
def partType (part : Option PartInfo) : Option String := part.bind (·.type)
def partTool (part : Option PartInfo) : Option String := part.bind (·.tool)
def partMetadata (part : Option PartInfo) : Option Json := part.bind (·.metadata)
def partState (part : Option PartInfo) : Option String := part.bind (·.state)

/-- The `for await (const event of eventResponse.stream)` loop: per event,
check the wall-clock budget, append a truthy text delta, record a tool
part, stop on a matching `session.idle`, raise on a matching
`session.error`.  Returns the accumulated text parts and tool calls. -/
def consumeEvents (sessionId : String) (startTime : Nat) :
    List (Nat × Event) → List String → List ToolCallResult →
    Except ExecError (List String × List ToolCallResult)
  | [], textParts, toolCalls => .ok (textParts, toolCalls)
  | (t, e) :: rest, textParts, toolCalls =>
    if startTime + responseBudgetMs < t then .error .responseTimeout
    else
      match e with
      | .messagePartUpdated delta part =>
        let textParts' :=
          if truthy delta && (partType part == some "text") then
            textParts ++ [delta.getD ""]
          else textParts
        let toolCalls' :=
          if (partType part == some "tool") && truthy (partTool part) then
            toolCalls ++
              [{ name := (partTool part).getD ""
                 input := (partMetadata part).getD (.obj [])
                 output := partState part }]
          else toolCalls
        consumeEvents sessionId startTime rest textParts' toolCalls'
      | .sessionIdle sid =>
        if sid = some sessionId then .ok (textParts, toolCalls)
        else consumeEvents sessionId startTime rest textParts toolCalls
      | .sessionError sid err =>
        if sid = some sessionId then .error (.upstreamSessionError err)
        else consumeEvents sessionId startTime rest textParts toolCalls
      | .other => consumeEvents sessionId startTime rest textParts toolCalls

/-- `ExecuteOptions` (opencode-executor.service.ts). -/
structure ExecuteOptions where
  tenantId : String
  workspaceConfig : WorkspaceConfig
  messages : List ChatMessage
  model : Option ModelSelection := none
  providerCredentials : Option (List (String × String)) := none

/-- The `setProviderCredentials` loop: one `auth.set` per entry, scoped to
the workspace directory; a returned error is logged, never thrown. -/
def setProviderCredentials (creds : List (String × String)) (dir : String) : List Action :=
  creds.map fun c => .setCredential c.1 dir

/-- `execute(options)`: acquire (or reuse) the pooled instance, touch it,
push credentials, create one session, subscribe, dispatch the prompt,
consume events, always attempt session deletion (errors swallowed), and on
any raised error additionally run `shutdownInstance` for the owning key
before re-raising.  Returns the result (or error), the post state, and the
action trace.  `now` is the `Date.now()` clock at request start. -/
def execute (cfg : PoolConfig) (rt : Runtime) (now : Nat) (st : ExecState)
    (opts : ExecuteOptions) :
    Except ExecError ExecutorResult × ExecState × List Action :=
  match getOrCreateInstance cfg rt.portAvailable now st opts.tenantId opts.workspaceConfig with
  | (.error e, st1, acts0) => (.error e, st1, acts0)
  | (.ok pi, st1, acts0) =>
    let key := computeInstanceKey opts.tenantId opts.workspaceConfig
    let touched := touchInstance cfg st1 key now
    let st2 := touched.1
    let actsT := touched.2
    let credActs :=
      match opts.providerCredentials with
      | none => []
      | some creds => setProviderCredentials creds pi.workspacePath
    let prompt := buildPrompt opts.messages
    let providerID := (opts.model.map (·.providerId)).getD "anthropic"
    let modelID := (opts.model.map (·.modelId)).getD "claude-sonnet-4-20250514"
    let pre := acts0 ++ actsT ++ credActs
    match rt.sessionCreate with
    | .error detail =>
      let down := shutdownInstance st2 key
      (.error (.sessionCreateFailed detail), down.1,
        pre ++ [.sessionCreateAttempt] ++ down.2)
    | .ok sessionId =>
      let agent := opts.model.bind (·.agentId)
      if rt.promptFails then
        let down := shutdownInstance st2 key
        (.error .promptDispatchFailed, down.1,
          pre ++
            [.sessionCreateAttempt, .promptSend sessionId prompt providerID modelID agent,
              .sessionDeleteAttempt sessionId (!rt.deleteFails)] ++ down.2)
      else
        let sent :=
          [Action.sessionCreateAttempt,
            Action.promptSend sessionId prompt providerID modelID agent]
        match consumeEvents sessionId now rt.events [] [] with
        | .error e =>
          let down := shutdownInstance st2 key
          (.error e, down.1,
            pre ++ sent ++ [.sessionDeleteAttempt sessionId (!rt.deleteFails)] ++ down.2)
        | .ok (textParts, toolCalls) =>
          let joined := String.join textParts
          let content := if joined = "" then "No response generated" else joined
          (.ok { content := content, toolCalls := toolCalls }, st2,
            pre ++ sent ++ [.sessionDeleteAttempt sessionId (!rt.deleteFails)])

/-- `executeStreaming`: runs the full `execute`, then yields one
`tool_call` chunk per recorded call, one `text` chunk carrying the whole
accumulated content, and a final `done` chunk. -/
def executeStreamingChunks (result : ExecutorResult) : List StreamChunk :=
  result.toolCalls.map .toolCall ++ [.text result.content, .done]

/-! ## Completion translator (chat.service.ts rendering) -/

/-- OpenAI wire `ToolCall` (chat.types.ts), `function` flattened. -/
structure ToolCall where
  id : String
  type : String
  functionName : String
  functionArguments : String

/-- The assistant message of a completion choice. -/
structure ChoiceMessage where
  role : String
  content : Option String
  tool_calls : Option (List ToolCall)

/-- A completion choice. -/
structure ChatCompletionChoice where
  index : Nat
  message : ChoiceMessage
  finish_reason : String

/-- The `usage` block. -/
structure Usage where
  prompt_tokens : Nat
  completion_tokens : Nat
  total_tokens : Nat
deriving DecidableEq, Repr

/-- `ChatCompletionResponse` (chat.types.ts). -/
structure ChatCompletionResponse where
  id : String
  object : String
  created : Nat
  model : String
  choices : List ChatCompletionChoice
  usage : Usage

/-- The non-streaming response body built by `chatCompletions` from the
executor result.  `completionId` stands for `` `chatcmpl-${randomUUID()}` ``
and `callUuid i` for the `randomUUID()` drawn for the `i`-th tool call. -/
def renderChatCompletion (completionId : String) (created : Nat) (modelStr : String)
    (callUuid : Nat → String) (result : ExecutorResult) : ChatCompletionResponse :=
  let hasToolCalls : Bool := result.toolCalls.length > 0
  { id := completionId
    object := "chat.completion"
    created := created
    model := modelStr
    choices :=
      [{ index := 0
         message :=
           { role := "assistant"
             content := if hasToolCalls then none else some result.content
             tool_calls :=
               if hasToolCalls then
                 some ((result.toolCalls.enum).map fun p =>
                   { id := "call_" ++ String.mk ((callUuid p.1).toList.take 8)
                     type := "function"
                     functionName := p.2.name
                     functionArguments := Json.stringify p.2.input })
               else none }
         finish_reason := if hasToolCalls then "tool_calls" else "stop" }]
    usage := { prompt_tokens := 0, completion_tokens := 0, total_tokens := 0 } }

/-- The `delta` of a streamed chunk choice. -/
structure ChunkDelta where
  role : Option String := none
  content : Option String := none

/-- `ChatCompletionChunk` (chat.types.ts), single choice at index 0. -/
structure ChatCompletionChunk where
  id : String
  object : String
  created : Nat
  model : String
  delta : ChunkDelta
  finish_reason : Option String

/-- The opening role-only chunk of `chatCompletionsStreaming`. -/
def roleChunk (completionId : String) (created : Nat) (modelStr : String) :
    ChatCompletionChunk :=
  { id := completionId, object := "chat.completion.chunk", created := created
    model := modelStr, delta := { role := some "assistant" }, finish_reason := none }

/-- A content-delta chunk. -/
def contentChunk (completionId : String) (created : Nat) (modelStr : String)
    (content : String) : ChatCompletionChunk :=
  { id := completionId, object := "chat.completion.chunk", created := created
    model := modelStr, delta := { content := some content }, finish_reason := none }

/-- The terminal empty-delta chunk with `finish_reason = "stop"`. -/
def stopChunk (completionId : String) (created : Nat) (modelStr : String) :
    ChatCompletionChunk :=
  { id := completionId, object := "chat.completion.chunk", created := created
    model := modelStr, delta := {}, finish_reason := some "stop" }

/-- The `for await` body of `chatCompletionsStreaming`: a `text` chunk with
truthy content becomes a content-delta chunk, `done` becomes the stop
chunk, `tool_call` chunks are drained without emission. -/
def renderStreamChunk (completionId : String) (created : Nat) (modelStr : String) :
    StreamChunk → Option ChatCompletionChunk
  | .text content =>
      if content ≠ "" then some (contentChunk completionId created modelStr content)
      else none
  | .done => some (stopChunk completionId created modelStr)
  | .toolCall _ => none

/-- `chatCompletionsStreaming` after the context is built: the role chunk
followed by the rendering of the executor's stream chunks. -/
def chatCompletionsStreamingChunks (completionId : String) (created : Nat)
    (modelStr : String) (chunks : List StreamChunk) : List ChatCompletionChunk :=
  roleChunk completionId created modelStr ::
    chunks.filterMap (renderStreamChunk completionId created modelStr)

/-- The full streaming pipeline for one request whose `execute` succeeded
with `result`: `chatCompletionsStreaming` rendering of
`executeStreaming`'s chunks. -/
def streamedChunksOf (completionId : String) (created : Nat) (modelStr : String)
    (result : ExecutorResult) : List ChatCompletionChunk :=
  chatCompletionsStreamingChunks completionId created modelStr
    (executeStreamingChunks result)

/-! ## Helper lemmas: association lists -/

section AListLemmas

variable {α β : Type} [DecidableEq α]

theorem lookupA_updateA_self {l : List (α × β)} {k : α} {v₀ : β} (v : β)
    (h : lookupA l k = some v₀) : lookupA (updateA l k v) k = some v := by
  induction l with
  | nil => simp [lookupA] at h
  | cons p rest ih =>
    obtain ⟨pk, pv⟩ := p
    by_cases hk : pk = k
    · simp [lookupA, updateA, hk]
    · simp only [lookupA, hk, if_false] at h
      simpa [updateA, lookupA, hk] using ih h

theorem lookupA_removeA_self (l : List (α × β)) (k : α) :
    lookupA (removeA l k) k = none := by
  induction l with
  | nil => simp [removeA, lookupA]
  | cons p rest ih =>
    obtain ⟨pk, pv⟩ := p
    by_cases hk : pk = k
    · simpa [removeA, hk] using ih
    · simpa [removeA, hk, lookupA] using ih

theorem lookupA_append_right {l₁ : List (α × β)} {k : α} (l₂ : List (α × β))
    (h : lookupA l₁ k = none) : lookupA (l₁ ++ l₂) k = lookupA l₂ k := by
  induction l₁ with
  | nil => simp
  | cons p rest ih =>
    obtain ⟨pk, pv⟩ := p
    by_cases hk : pk = k
    · simp [lookupA, hk] at h
    · simp only [lookupA, hk, if_false] at h
      simpa [lookupA, hk] using ih h

end AListLemmas

/-! ## Helper lemmas: character indexing (parseModel) -/

theorem indexOfAux_eq_none {c : Char} {l : List Char} (h : c ∉ l) :
    indexOfAux c l = none := by
  induction l with
  | nil => rfl
  | cons x xs ih =>
    simp only [List.mem_cons, not_or] at h
    have hx : ¬ x = c := fun he => h.1 he.symm
    simp [indexOfAux, hx, ih h.2]

theorem lastIndexOfAux_eq_none {c : Char} {l : List Char} (h : c ∉ l) :
    lastIndexOfAux c l = none := by
  induction l with
  | nil => rfl
  | cons x xs ih =>
    simp only [List.mem_cons, not_or] at h
    have hx : ¬ x = c := fun he => h.1 he.symm
    simp [lastIndexOfAux, ih h.2, hx]

theorem lastIndexOfAux_append {c : Char} (l₁ : List Char) {l₂ : List Char}
    (h : c ∉ l₂) : lastIndexOfAux c (l₁ ++ c :: l₂) = some l₁.length := by
  induction l₁ with
  | nil => simp [lastIndexOfAux, lastIndexOfAux_eq_none h]
  | cons x xs ih => simp [lastIndexOfAux, ih]

theorem indexOfAux_append {c : Char} {l₁ : List Char} (l₂ : List Char)
    (h : c ∉ l₁) : indexOfAux c (l₁ ++ c :: l₂) = some l₁.length := by
  induction l₁ with
  | nil => simp [indexOfAux]
  | cons x xs ih =>
    simp only [List.mem_cons, not_or] at h
    have hx : ¬ x = c := fun he => h.1 he.symm
    simp [indexOfAux, hx, ih h.2]

theorem take_append_cons (l₁ : List Char) (c : Char) (l₂ : List Char) :
    (l₁ ++ c :: l₂).take l₁.length = l₁ := List.take_left l₁ (c :: l₂)

theorem drop_append_cons (l₁ : List Char) (c : Char) (l₂ : List Char) :
    (l₁ ++ c :: l₂).drop (l₁.length + 1) = l₂ := by
  have : l₁ ++ c :: l₂ = (l₁ ++ [c]) ++ l₂ := by simp
  rw [this]
  have hlen : l₁.length + 1 = (l₁ ++ [c]).length := by simp
  rw [hlen, List.drop_left]

/-! ## Claim C4: the parseModel grammar -/

/-- **C4.** `parseModel` implements the grammar `provider/model`,
`provider/model@agent`, `model`, `model@agent`: the `@agent` suffix is split
off at the rightmost `@` (so the agent part contains no `@`); a remaining
part containing `/` splits at its first `/` into `providerId` and the rest
as `modelId`; a remaining part without `/` uses the tenant's default
provider.  Stated over the character lists of the four shapes. -/
theorem parseModel_grammar :
    (∀ (p m a : List Char) (t : TenantConfig), '@' ∉ a → '/' ∉ p →
      parseModel (String.mk ((p ++ '/' :: m) ++ '@' :: a)) t =
        { providerId := String.mk p, modelId := String.mk m,
          agentId := some (String.mk a) }) ∧
    (∀ (p m : List Char) (t : TenantConfig), '@' ∉ p → '@' ∉ m → '/' ∉ p →
      parseModel (String.mk (p ++ '/' :: m)) t =
        { providerId := String.mk p, modelId := String.mk m, agentId := none }) ∧
    (∀ (m a : List Char) (t : TenantConfig) (dm : ModelConfig),
      '@' ∉ a → '/' ∉ m → t.defaultModel = some dm →
      parseModel (String.mk (m ++ '@' :: a)) t =
        { providerId := dm.providerId, modelId := String.mk m,
          agentId := some (String.mk a) }) ∧
    (∀ (m : List Char) (t : TenantConfig) (dm : ModelConfig),
      '@' ∉ m → '/' ∉ m → t.defaultModel = some dm →
      parseModel (String.mk m) t =
        { providerId := dm.providerId, modelId := String.mk m, agentId := none }) := by
  refine ⟨?_, ?_, ?_, ?_⟩
  · intro p m a t ha hp
    have hlast : lastIndexOfAux '@' ((p ++ '/' :: m) ++ '@' :: a)
        = some (p ++ '/' :: m).length := lastIndexOfAux_append _ ha
    have hidx : indexOfAux '/' (p ++ '/' :: m) = some p.length := indexOfAux_append _ hp
    simp only [parseModel, String.toList, hlast, take_append_cons, drop_append_cons,
      hidx]
  · intro p m t hp hm hps
    have hnone : lastIndexOfAux '@' (p ++ '/' :: m) = none := by
      refine lastIndexOfAux_eq_none ?_
      simp only [List.mem_append, List.mem_cons, not_or]
      exact ⟨hp, by decide, hm⟩
    have hidx : indexOfAux '/' (p ++ '/' :: m) = some p.length := indexOfAux_append _ hps
    simp only [parseModel, String.toList, hnone, hidx, take_append_cons, drop_append_cons]
  · intro m a t dm ha hm hdm
    have hlast : lastIndexOfAux '@' (m ++ '@' :: a) = some m.length :=
      lastIndexOfAux_append _ ha
    have hnone : indexOfAux '/' m = none := indexOfAux_eq_none hm
    simp only [parseModel, String.toList, hlast, take_append_cons, drop_append_cons,
      hnone, hdm]
  · intro m t dm hm hs hdm
    have h1 : lastIndexOfAux '@' m = none := lastIndexOfAux_eq_none hm
    have h2 : indexOfAux '/' m = none := indexOfAux_eq_none hs
    simp only [parseModel, String.toList, h1, h2, hdm]

/-- Witness for C4 at the spec's two concrete examples:
`parseModel("openrouter/openai/gpt-4o-mini")` and
`parseModel("claude-sonnet@my-agent")` with default provider `anthropic`. -/
theorem parseModel_grammar_witness :
    parseModel "openrouter/openai/gpt-4o-mini" { } =
      { providerId := "openrouter", modelId := "openai/gpt-4o-mini", agentId := none } ∧
    parseModel "claude-sonnet@my-agent"
        { defaultModel := some { providerId := "anthropic", modelId := "claude-3" } } =
      { providerId := "anthropic", modelId := "claude-sonnet", agentId := some "my-agent" } := by
  constructor
  · have h := parseModel_grammar.2.1 "openrouter".toList "openai/gpt-4o-mini".toList { }
      (by decide) (by decide) (by decide)
    simpa using h
  · have h := parseModel_grammar.2.2.1 "claude-sonnet".toList "my-agent".toList
      { defaultModel := some { providerId := "anthropic", modelId := "claude-3" } }
      { providerId := "anthropic", modelId := "claude-3" }
      (by decide) (by decide) rfl
    simpa using h

/-! ## Order properties of the sort comparator -/

theorem codeUnitLe_total : ∀ l₁ l₂, codeUnitLe l₁ l₂ = true ∨ codeUnitLe l₂ l₁ = true := by
  intro l₁
  induction l₁ with
  | nil => intro l₂; left; cases l₂ <;> rfl
  | cons a as ih =>
    intro l₂
    cases l₂ with
    | nil => right; rfl
    | cons b bs =>
      by_cases hab : a.toNat < b.toNat
      · left; simp [codeUnitLe, hab]
      · by_cases hba : b.toNat < a.toNat
        · right; simp [codeUnitLe, hba]
        · rcases ih bs with h | h
          · left; simp [codeUnitLe, hab, hba, h]
          · right; simp [codeUnitLe, hab, hba, h]

theorem codeUnitLe_trans :
    ∀ l₁ l₂ l₃, codeUnitLe l₁ l₂ = true → codeUnitLe l₂ l₃ = true →
      codeUnitLe l₁ l₃ = true := by
  intro l₁
  induction l₁ with
  | nil => intro l₂ l₃ _ _; cases l₃ <;> rfl
  | cons a as ih =>
    intro l₂ l₃ h1 h2
    cases l₂ with
    | nil => simp [codeUnitLe] at h1
    | cons b bs =>
      cases l₃ with
      | nil => simp [codeUnitLe] at h2
      | cons c cs =>
        by_cases hab : a.toNat < b.toNat
        · by_cases hbc : b.toNat < c.toNat
          · simp [codeUnitLe, Nat.lt_trans hab hbc]
          · by_cases hcb : c.toNat < b.toNat
            · simp [codeUnitLe, hbc, hcb] at h2
            · have hbceq : b.toNat = c.toNat :=
                Nat.le_antisymm (Nat.not_lt.mp hcb) (Nat.not_lt.mp hbc)
              simp [codeUnitLe, hbceq ▸ hab]
        · by_cases hba : b.toNat < a.toNat
          · simp [codeUnitLe, hab, hba] at h1
          · have habeq : a = b :=
              Char.ext (UInt32.ext_iff.mpr
                (Nat.le_antisymm (Nat.not_lt.mp hba) (Nat.not_lt.mp hab)))
            subst habeq
            simp only [codeUnitLe, hab, hba, if_false] at h1
            by_cases hac : a.toNat < c.toNat
            · simp [codeUnitLe, hac]
            · by_cases hca : c.toNat < a.toNat
              · simp [codeUnitLe, hac, hca] at h2
              · simp only [codeUnitLe, hac, hca, if_false] at h2 ⊢
                exact ih bs cs h1 h2

theorem codeUnitLe_antisymm :
    ∀ l₁ l₂, codeUnitLe l₁ l₂ = true → codeUnitLe l₂ l₁ = true → l₁ = l₂ := by
  intro l₁
  induction l₁ with
  | nil =>
    intro l₂ _ h2
    cases l₂ with
    | nil => rfl
    | cons b bs => simp [codeUnitLe] at h2
  | cons a as ih =>
    intro l₂ h1 h2
    cases l₂ with
    | nil => simp [codeUnitLe] at h1
    | cons b bs =>
      by_cases hab : a.toNat < b.toNat
      · simp [codeUnitLe, hab, Nat.lt_asymm hab] at h2
      · by_cases hba : b.toNat < a.toNat
        · simp [codeUnitLe, hab, hba] at h1
        · have habeq : a = b :=
            Char.ext (UInt32.ext_iff.mpr
              (Nat.le_antisymm (Nat.not_lt.mp hba) (Nat.not_lt.mp hab)))
          subst habeq
          simp only [codeUnitLe, hab, hba, if_false] at h1 h2
          exact congrArg (a :: ·) (ih bs h1 h2)

instance : IsTotal String (fun a b => stringLeB a b = true) :=
  ⟨fun a b => codeUnitLe_total a.data b.data⟩

instance : IsTrans String (fun a b => stringLeB a b = true) :=
  ⟨fun _ _ _ h1 h2 => codeUnitLe_trans _ _ _ h1 h2⟩

instance : IsAntisymm String (fun a b => stringLeB a b = true) :=
  ⟨fun a b h1 h2 => by
    cases a; cases b
    exact congrArg String.mk (codeUnitLe_antisymm _ _ h1 h2)⟩

/-! ## Claim C9: the pool key is a function of tenant id and tool-name set -/

/-- **C9.** `computeInstanceKey` depends only on the tenant id and the tool
names up to order: two workspace configs for the same tenant whose tool
lists carry the same names (as a permutation, i.e. in any order) get the
same key, even though their tool sources, agents, secrets and models are
unrelated; consequently, when an instance is registered under that key, a
subsequent `getOrCreateInstance` with the other config is a cache hit — it
returns the existing instance and only rewrites agent files. -/
theorem computeInstanceKey_only_tenant_and_names
    (tenantId : String) (c₁ c₂ : WorkspaceConfig)
    (hperm : List.Perm (c₁.tools.map (·.name)) (c₂.tools.map (·.name))) :
    computeInstanceKey tenantId c₁ = computeInstanceKey tenantId c₂ ∧
    ∀ (cfg : PoolConfig) (avail : Nat → Bool) (now : Nat) (st : ExecState)
      (pi : PooledInstance),
      lookupA st.instances (computeInstanceKey tenantId c₁) = some pi →
      getOrCreateInstance cfg avail now st tenantId c₂ =
        (.ok pi, st, writeAgents pi.workspacePath c₂.agents) := by
  have hsort : (c₁.tools.map (·.name)).insertionSort (fun a b => stringLeB a b = true) =
      (c₂.tools.map (·.name)).insertionSort (fun a b => stringLeB a b = true) := by
    refine List.eq_of_perm_of_sorted ?_ (List.sorted_insertionSort _ _)
      (List.sorted_insertionSort _ _)
    exact ((List.perm_insertionSort _ _).trans hperm).trans
      (List.perm_insertionSort _ _).symm
  have hkey : computeInstanceKey tenantId c₁ = computeInstanceKey tenantId c₂ := by
    unfold computeInstanceKey
    rw [hsort]
  refine ⟨hkey, ?_⟩
  intro cfg avail now st pi hlook
  rw [hkey] at hlook
  simp [getOrCreateInstance, hlook]

/-- Witness for C9: same tenant, same names in swapped order with different
sources, agents and secrets — equal keys, and a hit returns the registered
instance unchanged. -/
theorem computeInstanceKey_only_tenant_and_names_witness :
    computeInstanceKey "t1"
        { tenantId := "t1", tools := [⟨"alpha", "src-a"⟩, ⟨"beta", "src-b"⟩],
          agents := [⟨"ag", "x"⟩] } =
      computeInstanceKey "t1"
        { tenantId := "t1", tools := [⟨"beta", "other-src"⟩, ⟨"alpha", "changed"⟩],
          agents := [], secrets := [("k", "v")] } ∧
    getOrCreateInstance { idleTimeoutMs := 1000, baseDir := "/tmp/oc" } (fun _ => true) 5
        { instances := [(("t1", ["alpha", "beta"]),
            { port := 14096, workspacePath := "w", lastUsed := 0, idleTimer := none })],
          nextPort := 14097 }
        "t1"
        { tenantId := "t1", tools := [⟨"beta", "other-src"⟩, ⟨"alpha", "changed"⟩],
          agents := [] } =
      (.ok { port := 14096, workspacePath := "w", lastUsed := 0, idleTimer := none },
        { instances := [(("t1", ["alpha", "beta"]),
            { port := 14096, workspacePath := "w", lastUsed := 0, idleTimer := none })],
          nextPort := 14097 },
        []) := by
  have h := computeInstanceKey_only_tenant_and_names "t1"
    { tenantId := "t1", tools := [⟨"alpha", "src-a"⟩, ⟨"beta", "src-b"⟩],
      agents := [⟨"ag", "x"⟩] }
    { tenantId := "t1", tools := [⟨"beta", "other-src"⟩, ⟨"alpha", "changed"⟩],
      agents := [], secrets := [("k", "v")] }
    (by decide)
  refine ⟨h.1, ?_⟩
  have h2 := computeInstanceKey_only_tenant_and_names "t1"
    { tenantId := "t1", tools := [⟨"alpha", "x"⟩, ⟨"beta", "y"⟩], agents := [] }
    { tenantId := "t1", tools := [⟨"beta", "other-src"⟩, ⟨"alpha", "changed"⟩],
      agents := [] }
    (by decide)
  have h3 := h2.2 { idleTimeoutMs := 1000, baseDir := "/tmp/oc" } (fun _ => true) 5
    { instances := [(("t1", ["alpha", "beta"]),
        { port := 14096, workspacePath := "w", lastUsed := 0, idleTimer := none })],
      nextPort := 14097 }
    { port := 14096, workspacePath := "w", lastUsed := 0, idleTimer := none }
    rfl
  simpa [writeAgents] using h3

/-! ## Helper lemmas: the wrapping port counter -/

theorem advancePort_range {p : Nat} (h1 : 14096 ≤ p) (h2 : p ≤ 15000) :
    14096 ≤ advancePort p ∧ advancePort p ≤ 15000 := by
  unfold advancePort; split <;> omega

theorem advancePort_sub {p : Nat} (h1 : 14096 ≤ p) (h2 : p ≤ 15000) :
    advancePort p - 14096 = (p - 14096 + 1) % 905 := by
  unfold advancePort; split <;> omega

set_option maxRecDepth 4096 in
theorem mem_portCandidates_exists {q start : Nat} :
    ∀ {n : Nat}, 14096 ≤ start → start ≤ 15000 → q ∈ portCandidates start n →
      ∃ k, k < n ∧ q = 14096 + (start - 14096 + k) % 905 := by
  intro n
  induction n generalizing start with
  | zero => intro _ _ hq; simp [portCandidates] at hq
  | succ n ih =>
    intro hs1 hs2 hq
    simp only [portCandidates, List.mem_cons] at hq
    rcases hq with rfl | hq
    · exact ⟨0, Nat.succ_pos n, by omega⟩
    · have hr := advancePort_range hs1 hs2
      obtain ⟨k, hk, hqe⟩ := ih hr.1 hr.2 hq
      refine ⟨k + 1, by omega, ?_⟩
      rw [hqe, advancePort_sub hs1 hs2]
      rw [Nat.mod_add_mod]
      omega

/-- A full draw after evicting a port `p` never re-draws `p`: the next 20
candidates of the ring counter starting just past `p` all differ from `p`. -/
theorem portCandidates_after_ne {p : Nat} (h1 : 14096 ≤ p) (h2 : p ≤ 15000) :
    ∀ q ∈ portCandidates (advancePort p) 20, q ≠ p := by
  intro q hq
  have hr := advancePort_range h1 h2
  obtain ⟨k, hk, hqe⟩ := mem_portCandidates_exists hr.1 hr.2 hq
  rw [hqe, advancePort_sub h1 h2, Nat.mod_add_mod]
  omega

/-- Characterization of the port-search loop: it returns the first candidate
the probe accepts (advancing the counter past it), probing each failed
candidate on the way; when no candidate is accepted it reports exhaustion
with the counter advanced over all attempts. -/
theorem findAvailablePortAux_spec (avail : Nat → Bool) :
    ∀ (n next : Nat),
      findAvailablePortAux avail next n =
        match (portCandidates next n).find? avail with
        | some p =>
            (some p, advancePort p,
              ((portCandidates next n).takeWhile (fun q => !avail q)).map
                (fun q => Action.probePort q false) ++ [Action.probePort p true])
        | none =>
            (none, advancePort^[n] next,
              (portCandidates next n).map (fun q => Action.probePort q false)) := by
  intro n
  induction n with
  | zero => intro next; simp [findAvailablePortAux, portCandidates]
  | succ n ih =>
    intro next
    by_cases h : avail next
    · simp [findAvailablePortAux, portCandidates, List.find?, h, List.takeWhile]
    · have hfi : avail next = false := by simpa using h
      simp only [findAvailablePortAux, portCandidates, hfi, Bool.false_eq_true, if_false,
        List.find?, List.takeWhile, Bool.not_false, List.map_cons]
      rw [ih (advancePort next)]
      cases hf : (portCandidates (advancePort next) n).find? avail with
      | some p => simp [hf]
      | none => simp [hf, Function.iterate_succ_apply]

/-- `findAvailablePort` as a whole, in declarative form. -/
theorem findAvailablePort_eq (avail : Nat → Bool) (next n : Nat) :
    findAvailablePort avail next n =
      match (portCandidates next n).find? avail with
      | some p =>
          (.ok p, advancePort p,
            ((portCandidates next n).takeWhile (fun q => !avail q)).map
              (fun q => Action.probePort q false) ++ [Action.probePort p true])
      | none =>
          (.error (.portExhausted
              ("Could not find available port after " ++ toString n ++ " attempts")),
            advancePort^[n] next,
            (portCandidates next n).map (fun q => Action.probePort q false)) := by
  rw [findAvailablePort, findAvailablePortAux_spec]
  cases hf : (portCandidates next n).find? avail with
  | some p => simp
  | none => simp

/-- Every drawn candidate lies on the [14096, 15000] ring when the counter
starts there. -/
theorem mem_portCandidates_range {q start n : Nat} (hs1 : 14096 ≤ start)
    (hs2 : start ≤ 15000) (hq : q ∈ portCandidates start n) :
    14096 ≤ q ∧ q ≤ 15000 := by
  obtain ⟨k, _, hqe⟩ := mem_portCandidates_exists hs1 hs2 hq
  omega

/-! ## Claim C8: findAvailablePort -/

/-- **C8.** `findAvailablePort(maxAttempts)` draws candidates from the
wrapping counter (increment; reset to 14096 once the counter exceeds
15000), performs one probe per drawn candidate (recorded in the trace),
advances to the next candidate on probe failure, returns the first
candidate whose probe succeeds, and returns the port-exhaustion error
exactly when all `maxAttempts` probes fail; the `maxAttempts` argument
defaults to 20. -/
theorem findAvailablePort_first_fit :
    (∀ p, p < 15000 → advancePort p = p + 1) ∧
    advancePort 15000 = 14096 ∧
    (∀ next n, portCandidates next (n + 1) = next :: portCandidates (advancePort next) n) ∧
    (∀ (avail : Nat → Bool) (next n : Nat),
      findAvailablePort avail next n =
        match (portCandidates next n).find? avail with
        | some p =>
            (.ok p, advancePort p,
              ((portCandidates next n).takeWhile (fun q => !avail q)).map
                (fun q => Action.probePort q false) ++ [Action.probePort p true])
        | none =>
            (.error (.portExhausted
                ("Could not find available port after " ++ toString n ++ " attempts")),
              advancePort^[n] next,
              (portCandidates next n).map (fun q => Action.probePort q false))) ∧
    (∀ (avail : Nat → Bool) (next n : Nat),
      (∃ msg, (findAvailablePort avail next n).1 = .error (.portExhausted msg)) ↔
        ∀ p ∈ portCandidates next n, avail p = false) ∧
    (∀ (avail : Nat → Bool) (next n : Nat) (p : Nat),
      (findAvailablePort avail next n).1 = .ok p → avail p = true ∧ p ∈ portCandidates next n) ∧
    (∀ (avail : Nat → Bool) (next : Nat),
      findAvailablePort avail next = findAvailablePort avail next 20) := by
  have hmain := findAvailablePort_eq
  refine ⟨?_, by rfl, fun next n => rfl, hmain, ?_, ?_, fun avail next => rfl⟩
  · intro p hp
    unfold advancePort
    split <;> omega
  · intro avail next n
    rw [hmain]
    cases hf : (portCandidates next n).find? avail with
    | some p =>
      simp only [hf]
      constructor
      · rintro ⟨msg, hmsg⟩; simp at hmsg
      · intro hall
        have := List.mem_of_find?_eq_some hf
        have hp := List.find?_some hf
        exact absurd (hall p this) (by simp [hp])
    | none =>
      simp only [hf]
      constructor
      · intro _
        intro p hp
        have := List.find?_eq_none.mp hf p hp
        simpa using this
      · intro _; exact ⟨_, rfl⟩
  · intro avail next n p hok
    rw [hmain] at hok
    cases hf : (portCandidates next n).find? avail with
    | some q =>
      simp only [hf] at hok
      cases hok
      exact ⟨List.find?_some hf, List.mem_of_find?_eq_some hf⟩
    | none => simp [hf] at hok

/-- Witness for C8: counter increment below the bound applied at 14999;
concretely, after probing busy 14999 and 15000 the counter wraps and the
first free port 14097 is skipped in favor of... (here 14096 is taken,
14097 free, so two failed probes then success at 14097 after the wrap). -/
theorem findAvailablePort_first_fit_witness :
    advancePort 14999 = 15000 ∧
    (findAvailablePort (fun q => decide (q = 14097)) 14999 20).1 = .ok 14097 ∧
    (findAvailablePort (fun q => decide (q = 14097)) 14999 20).2.2 =
      [.probePort 14999 false, .probePort 15000 false, .probePort 14096 false,
        .probePort 14097 true] ∧
    (∃ msg, (findAvailablePort (fun _ => false) 14096 3).1 = .error (.portExhausted msg)) := by
  refine ⟨findAvailablePort_first_fit.1 14999 (by decide), by rfl, by rfl, ?_⟩
  exact (findAvailablePort_first_fit.2.2.2.2.1 (fun _ => false) 14096 3).mpr
    (by intro p _; rfl)

/-! ## Claim C7: acquire on a live instance touches only the agent files -/

/-- **C7.** When `getOrCreateInstance` is called for a pool key that already
has a live instance, it returns that exact handle (same port, same
workspace path), leaves the instance registry and the port counter
unchanged, performs exactly the agent-file writes derived from the supplied
config into that workspace — and nothing else: no directory creation, no
tool or runtime-config writes, no port probe, no server start. -/
theorem getOrCreateInstance_hit_frame
    (cfg : PoolConfig) (avail : Nat → Bool) (now : Nat) (st : ExecState)
    (tenantId : String) (config : WorkspaceConfig) (pi : PooledInstance)
    (hlive : lookupA st.instances (computeInstanceKey tenantId config) = some pi) :
    getOrCreateInstance cfg avail now st tenantId config =
      (.ok pi, st, writeAgents pi.workspacePath config.agents) ∧
    (∀ a ∈ (getOrCreateInstance cfg avail now st tenantId config).2.2,
      ∃ ag ∈ config.agents, a = .writeAgentFile pi.workspacePath ag.name ag.content) := by
  have heq : getOrCreateInstance cfg avail now st tenantId config =
      (.ok pi, st, writeAgents pi.workspacePath config.agents) := by
    simp [getOrCreateInstance, hlive]
  refine ⟨heq, ?_⟩
  rw [heq]
  intro a ha
  simp only [writeAgents, List.mem_map] at ha
  obtain ⟨ag, hag, rfl⟩ := ha
  exact ⟨ag, hag, rfl⟩

/-- Witness for C7: a pool with one live instance; a second acquire with a
different agent set returns the same port and path, leaves the state
intact, and only writes the supplied agent file. -/
theorem getOrCreateInstance_hit_frame_witness :
    getOrCreateInstance { idleTimeoutMs := 1000, baseDir := "/tmp/oc" } (fun _ => true) 7
        { instances := [(("t2", []),
            { port := 14100, workspacePath := "ws2", lastUsed := 1, idleTimer := some 5 })],
          nextPort := 14101 }
        "t2" { tenantId := "t2", tools := [], agents := [⟨"helper", "be helpful"⟩] } =
      (.ok { port := 14100, workspacePath := "ws2", lastUsed := 1, idleTimer := some 5 },
        { instances := [(("t2", []),
            { port := 14100, workspacePath := "ws2", lastUsed := 1, idleTimer := some 5 })],
          nextPort := 14101 },
        [.writeAgentFile "ws2" "helper" "be helpful"]) := by
  have h := (getOrCreateInstance_hit_frame { idleTimeoutMs := 1000, baseDir := "/tmp/oc" }
    (fun _ => true) 7
    { instances := [(("t2", []),
        { port := 14100, workspacePath := "ws2", lastUsed := 1, idleTimer := some 5 })],
      nextPort := 14101 }
    "t2" { tenantId := "t2", tools := [], agents := [⟨"helper", "be helpful"⟩] }
    { port := 14100, workspacePath := "ws2", lastUsed := 1, idleTimer := some 5 }
    rfl).1
  simpa [writeAgents] using h

/-! ## Claim C6: the idle timer is re-armed by every touch -/

/-- **C6.** For a live pool key: `touchInstance` sets `lastUsed` to the
current time, cancels any armed idle timer and arms exactly one new timer
with deadline `now + idleTimeoutMs` (so at most one timer is armed per key
at any time); absent a further touch, the armed timer firing at its
deadline makes the key absent; and a further touch at a strictly later
time re-arms the timer for a strictly later deadline, postponing eviction. -/
theorem touchInstance_rearms_single_timer
    (cfg : PoolConfig) (st : ExecState) (key : InstanceKey) (now : Nat)
    (pi : PooledInstance) (hlive : lookupA st.instances key = some pi) :
    lookupA (touchInstance cfg st key now).1.instances key =
      some { pi with lastUsed := now, idleTimer := some (now + cfg.idleTimeoutMs) } ∧
    (pi.idleTimer.isSome →
      (touchInstance cfg st key now).2 =
        [.clearIdleTimer key, .armIdleTimer key (now + cfg.idleTimeoutMs)]) ∧
    (pi.idleTimer = none →
      (touchInstance cfg st key now).2 =
        [.armIdleTimer key (now + cfg.idleTimeoutMs)]) ∧
    lookupA (fireIdleTimer (touchInstance cfg st key now).1 key).1.instances key = none ∧
    (∀ t', now < t' →
      lookupA (touchInstance cfg (touchInstance cfg st key now).1 key t').1.instances key =
        some { pi with lastUsed := t', idleTimer := some (t' + cfg.idleTimeoutMs) } ∧
      now + cfg.idleTimeoutMs < t' + cfg.idleTimeoutMs) := by
  have h1 : lookupA (touchInstance cfg st key now).1.instances key =
      some { pi with lastUsed := now, idleTimer := some (now + cfg.idleTimeoutMs) } := by
    simp only [touchInstance, hlive]
    exact lookupA_updateA_self _ hlive
  refine ⟨h1, ?_, ?_, ?_, ?_⟩
  · intro hsome
    match hpt : pi.idleTimer with
    | some d => simp [touchInstance, hlive, hpt]
    | none => rw [hpt] at hsome; simp at hsome
  · intro hnone
    simp [touchInstance, hlive, hnone]
  · simp only [fireIdleTimer, shutdownInstance, h1]
    exact lookupA_removeA_self _ _
  · intro t' hlt
    constructor
    · set st1 := (touchInstance cfg st key now).1 with hst1
      simp only [touchInstance, h1]
      exact lookupA_updateA_self _ h1
    · omega

/-- Witness for C6: one live instance with an armed timer, touched at time
3 with a 100ms idle budget; the timer is re-armed for 103, firing evicts,
and a later touch at 10 postpones to 110. -/
theorem touchInstance_rearms_single_timer_witness :
    lookupA (touchInstance { idleTimeoutMs := 100, baseDir := "b" }
        { instances := [(("t3", []),
            { port := 14200, workspacePath := "w3", lastUsed := 0, idleTimer := some 50 })],
          nextPort := 14201 } ("t3", []) 3).1.instances ("t3", []) =
      some { port := 14200, workspacePath := "w3", lastUsed := 3, idleTimer := some 103 } ∧
    (touchInstance { idleTimeoutMs := 100, baseDir := "b" }
        { instances := [(("t3", []),
            { port := 14200, workspacePath := "w3", lastUsed := 0, idleTimer := some 50 })],
          nextPort := 14201 } ("t3", []) 3).2 =
      [.clearIdleTimer ("t3", []), .armIdleTimer ("t3", []) 103] ∧
    lookupA (fireIdleTimer (touchInstance { idleTimeoutMs := 100, baseDir := "b" }
        { instances := [(("t3", []),
            { port := 14200, workspacePath := "w3", lastUsed := 0, idleTimer := some 50 })],
          nextPort := 14201 } ("t3", []) 3).1 ("t3", [])).1.instances ("t3", []) = none ∧
    (103 : Nat) < 110 := by
  have h := touchInstance_rearms_single_timer { idleTimeoutMs := 100, baseDir := "b" }
    { instances := [(("t3", []),
        { port := 14200, workspacePath := "w3", lastUsed := 0, idleTimer := some 50 })],
      nextPort := 14201 } ("t3", []) 3
    { port := 14200, workspacePath := "w3", lastUsed := 0, idleTimer := some 50 } rfl
  exact ⟨h.1, h.2.1 rfl, h.2.2.2.1, (h.2.2.2.2 10 (by decide)).2⟩

/-! ## Helper lemmas: traces and state of the pool operations -/

/-- Is this action the `session.create` call? -/
def isSessionCreate : Action → Bool
  | .sessionCreateAttempt => true
  | _ => false

/-- Is this action the `session.delete` call? -/
def isSessionDelete : Action → Bool
  | .sessionDeleteAttempt _ _ => true
  | _ => false

theorem findAvailablePortAux_trace (avail : Nat → Bool) :
    ∀ (n next : Nat), ∀ a ∈ (findAvailablePortAux avail next n).2.2,
      ∃ q b, a = .probePort q b := by
  intro n
  induction n with
  | zero => intro next a ha; simp [findAvailablePortAux] at ha
  | succ n ih =>
    intro next a ha
    by_cases h : avail next
    · simp [findAvailablePortAux, h] at ha
      exact ⟨next, true, ha⟩
    · simp only [findAvailablePortAux, h, Bool.false_eq_true, if_false,
        List.mem_cons] at ha
      rcases ha with rfl | ha
      · exact ⟨next, false, rfl⟩
      · exact ih (advancePort next) a ha

theorem findAvailablePort_trace (avail : Nat → Bool) (next n : Nat) :
    ∀ a ∈ (findAvailablePort avail next n).2.2, ∃ q b, a = .probePort q b := by
  intro a ha
  rw [findAvailablePort] at ha
  rcases haux : findAvailablePortAux avail next n with ⟨res, next', tr⟩
  cases res <;> simp only [haux] at ha <;>
    simpa using findAvailablePortAux_trace avail n next a (by rw [haux]; simpa using ha)

theorem createWorkspace_trace (cfg : PoolConfig) (key : InstanceKey)
    (config : WorkspaceConfig) :
    ∀ a ∈ (createWorkspace cfg key config).2,
      isSessionCreate a = false ∧ isSessionDelete a = false := by
  intro a ha
  cases a <;> simp only [isSessionCreate, isSessionDelete, and_self] <;>
    (revert ha; simp [createWorkspace, writeTools, writeAgents])

theorem getOrCreateInstance_trace_no_session (cfg : PoolConfig) (avail : Nat → Bool)
    (now : Nat) (st : ExecState) (tid : String) (config : WorkspaceConfig) :
    ∀ a ∈ (getOrCreateInstance cfg avail now st tid config).2.2,
      isSessionCreate a = false ∧ isSessionDelete a = false := by
  intro a ha
  rw [getOrCreateInstance] at ha
  cases hl : lookupA st.instances (computeInstanceKey tid config) with
  | some existing =>
    simp only [hl] at ha
    simp only [writeAgents, List.mem_map] at ha
    obtain ⟨ag, _, rfl⟩ := ha
    exact ⟨rfl, rfl⟩
  | none =>
    rcases hfp : findAvailablePort avail st.nextPort 20 with ⟨res, next', probes⟩
    have hprob : ∀ a ∈ probes, ∃ q b, a = Action.probePort q b := by
      intro x hx
      exact findAvailablePort_trace avail st.nextPort 20 x (by rw [hfp]; exact hx)
    cases res with
    | error e =>
      simp only [hl, hfp, List.mem_append] at ha
      rcases ha with ha | ha
      · exact createWorkspace_trace _ _ _ a ha
      · obtain ⟨q, b, rfl⟩ := hprob a ha
        exact ⟨rfl, rfl⟩
    | ok port =>
      simp only [hl, hfp, List.mem_append, List.mem_cons, List.not_mem_nil,
        or_false] at ha
      rcases ha with (ha | ha) | rfl
      · exact createWorkspace_trace _ _ _ a ha
      · obtain ⟨q, b, rfl⟩ := hprob a ha
        exact ⟨rfl, rfl⟩
      · exact ⟨rfl, rfl⟩

theorem touchInstance_trace_no_session (cfg : PoolConfig) (st : ExecState)
    (key : InstanceKey) (now : Nat) :
    ∀ a ∈ (touchInstance cfg st key now).2,
      isSessionCreate a = false ∧ isSessionDelete a = false := by
  intro a ha
  rw [touchInstance] at ha
  cases hl : lookupA st.instances key with
  | none => simp [hl] at ha
  | some pi =>
    simp only [hl] at ha
    cases hti : pi.idleTimer with
    | none =>
      simp [hti] at ha
      subst ha; exact ⟨rfl, rfl⟩
    | some d =>
      simp [hti] at ha
      rcases ha with rfl | rfl <;> exact ⟨rfl, rfl⟩

theorem shutdownInstance_trace_no_session (st : ExecState) (key : InstanceKey) :
    ∀ a ∈ (shutdownInstance st key).2,
      isSessionCreate a = false ∧ isSessionDelete a = false := by
  intro a ha
  rw [shutdownInstance] at ha
  cases hl : lookupA st.instances key with
  | none => simp [hl] at ha
  | some pi =>
    simp only [hl] at ha
    cases hti : pi.idleTimer with
    | none =>
      simp [hti] at ha
      rcases ha with rfl | rfl <;> exact ⟨rfl, rfl⟩
    | some d =>
      simp [hti] at ha
      rcases ha with rfl | rfl | rfl <;> exact ⟨rfl, rfl⟩

theorem setProviderCredentials_trace_no_session (creds : List (String × String))
    (dir : String) :
    ∀ a ∈ setProviderCredentials creds dir,
      isSessionCreate a = false ∧ isSessionDelete a = false := by
  intro a ha
  simp only [setProviderCredentials, List.mem_map] at ha
  obtain ⟨c, _, rfl⟩ := ha
  exact ⟨rfl, rfl⟩

theorem touchInstance_nextPort (cfg : PoolConfig) (st : ExecState) (key : InstanceKey)
    (now : Nat) : (touchInstance cfg st key now).1.nextPort = st.nextPort := by
  rw [touchInstance]
  cases hl : lookupA st.instances key <;> rfl

theorem shutdownInstance_nextPort (st : ExecState) (key : InstanceKey) :
    (shutdownInstance st key).1.nextPort = st.nextPort := by
  rw [shutdownInstance]
  cases hl : lookupA st.instances key <;> rfl

theorem getOrCreateInstance_ok_lookup {cfg : PoolConfig} {avail : Nat → Bool}
    {now : Nat} {st : ExecState} {tid : String} {config : WorkspaceConfig}
    {pi : PooledInstance} {st1 : ExecState} {acts0 : List Action}
    (hacq : getOrCreateInstance cfg avail now st tid config = (.ok pi, st1, acts0)) :
    lookupA st1.instances (computeInstanceKey tid config) = some pi := by
  rw [getOrCreateInstance] at hacq
  cases hl : lookupA st.instances (computeInstanceKey tid config) with
  | some existing =>
    simp only [hl] at hacq
    have h1 : existing = pi := by
      have := congrArg (fun x => x.1) hacq
      simpa using this
    have h2 : st = st1 := by
      have := congrArg (fun x => x.2.1) hacq
      simpa using this
    rw [← h2, hl, h1]
  | none =>
    rcases hfp : findAvailablePort avail st.nextPort 20 with ⟨res, next', probes⟩
    cases res with
    | error e => simp [hl, hfp] at hacq
    | ok port =>
      simp only [hl, hfp, Prod.mk.injEq, Except.ok.injEq] at hacq
      obtain ⟨h1, h2, -⟩ := hacq
      rw [← h2]
      rw [lookupA_append_right _ hl, h1]
      simp [lookupA]

/-! ## A concrete request scenario (used by the witnesses below) -/

/-- Concrete workspace config: tenant `t`, no tools, no agents. -/
def wcfg0 : WorkspaceConfig := { tenantId := "t", tools := [], agents := [] }

/-- Concrete execute options for tenant `t`. -/
def opts0 : ExecuteOptions :=
  { tenantId := "t", workspaceConfig := wcfg0, messages := [⟨"user", "hi"⟩] }

/-- Concrete pool configuration. -/
def cfg0 : PoolConfig := { idleTimeoutMs := 60000, baseDir := "/tmp/oc" }

/-- Empty pool at the initial counter value 14096. -/
def st0 : ExecState := { instances := [], nextPort := 14096 }

/-- A healthy runtime: session `s1`, text deltas `He` and `llo`, then idle. -/
def rt0 : Runtime where
  portAvailable := fun _ => true
  sessionCreate := .ok "s1"
  promptFails := false
  events := [(0, .messagePartUpdated (some "He") (some { type := some "text" })),
             (1, .messagePartUpdated (some "llo") (some { type := some "text" })),
             (2, .sessionIdle (some "s1"))]
  deleteFails := false

/-- The pooled instance the scenario creates. -/
def pi0 : PooledInstance :=
  { port := 14096, workspacePath := "/tmp/oc/t-", lastUsed := 0, idleTimer := none }

/-- The pool state right after the scenario's acquire. -/
def st0' : ExecState := { instances := [(("t", []), pi0)], nextPort := 14097 }

/-- The acquire trace of the scenario. -/
def acts0' : List Action :=
  [.mkdirWorkspace "/tmp/oc/t-", .writeConfigFile "/tmp/oc/t-" none,
    .probePort 14096 true, .createServer 14096 "/tmp/oc/t-"]

/-! ## Claim C2: one session, one best-effort delete per request -/

/-- **C2.** For every request actually driven against an instance (i.e. the
acquire step succeeded), `execute` calls `session.create` exactly once;
whenever creation succeeded — whatever the outcome (success, runtime
session error, timeout, prompt failure) — `session.delete` is attempted
exactly once; when creation failed no deletion is attempted (there is no
session); and a failure of the deletion itself is swallowed: it changes
neither the request's result nor the final pool state. -/
theorem execute_one_session_one_delete
    (cfg : PoolConfig) (rt : Runtime) (now : Nat) (st : ExecState) (opts : ExecuteOptions)
    (pi : PooledInstance) (st1 : ExecState) (acts0 : List Action)
    (hacq : getOrCreateInstance cfg rt.portAvailable now st opts.tenantId
      opts.workspaceConfig = (.ok pi, st1, acts0)) :
    (execute cfg rt now st opts).2.2.countP isSessionCreate = 1 ∧
    (∀ sid, rt.sessionCreate = .ok sid →
      (execute cfg rt now st opts).2.2.countP isSessionDelete = 1) ∧
    (∀ detail, rt.sessionCreate = .error detail →
      (execute cfg rt now st opts).2.2.countP isSessionDelete = 0) ∧
    (∀ b, (execute cfg { rt with deleteFails := b } now st opts).1 =
        (execute cfg rt now st opts).1 ∧
      (execute cfg { rt with deleteFails := b } now st opts).2.1 =
        (execute cfg rt now st opts).2.1) := by
  have hz0 : acts0.countP isSessionCreate = 0 ∧ acts0.countP isSessionDelete = 0 := by
    have hmem := getOrCreateInstance_trace_no_session cfg rt.portAvailable now st
      opts.tenantId opts.workspaceConfig
    rw [hacq] at hmem
    exact ⟨List.countP_eq_zero.mpr fun a ha => by simp [(hmem a ha).1],
      List.countP_eq_zero.mpr fun a ha => by simp [(hmem a ha).2]⟩
  have hzT : ∀ (s : ExecState) (k : InstanceKey) (t : Nat),
      (touchInstance cfg s k t).2.countP isSessionCreate = 0 ∧
      (touchInstance cfg s k t).2.countP isSessionDelete = 0 := by
    intro s k t
    exact ⟨List.countP_eq_zero.mpr fun a ha => by
        simp [(touchInstance_trace_no_session cfg s k t a ha).1],
      List.countP_eq_zero.mpr fun a ha => by
        simp [(touchInstance_trace_no_session cfg s k t a ha).2]⟩
  have hzD : ∀ (s : ExecState) (k : InstanceKey),
      (shutdownInstance s k).2.countP isSessionCreate = 0 ∧
      (shutdownInstance s k).2.countP isSessionDelete = 0 := by
    intro s k
    exact ⟨List.countP_eq_zero.mpr fun a ha => by
        simp [(shutdownInstance_trace_no_session s k a ha).1],
      List.countP_eq_zero.mpr fun a ha => by
        simp [(shutdownInstance_trace_no_session s k a ha).2]⟩
  have hzC : ∀ (creds : List (String × String)) (dir : String),
      (setProviderCredentials creds dir).countP isSessionCreate = 0 ∧
      (setProviderCredentials creds dir).countP isSessionDelete = 0 := by
    intro creds dir
    exact ⟨List.countP_eq_zero.mpr fun a ha => by
        simp [(setProviderCredentials_trace_no_session creds dir a ha).1],
      List.countP_eq_zero.mpr fun a ha => by
        simp [(setProviderCredentials_trace_no_session creds dir a ha).2]⟩
  have hzCred : ∀ ws : String,
      (match opts.providerCredentials with
        | none => []
        | some creds => setProviderCredentials creds ws).countP isSessionCreate = 0 ∧
      (match opts.providerCredentials with
        | none => []
        | some creds => setProviderCredentials creds ws).countP isSessionDelete = 0 := by
    intro ws
    cases opts.providerCredentials with
    | none => simp
    | some creds => exact hzC creds ws
  cases hc : rt.sessionCreate with
  | error detail =>
    simp only [execute, hacq, hc]
    refine ⟨?_, ?_, ?_, ?_⟩
    · simp [List.countP_append, hz0.1, (hzT _ _ _).1, (hzCred _).1, (hzD _ _).1,
        List.countP_cons, isSessionCreate]
    · intro sid hsid; simp [hc] at hsid
    · intro d hd
      simp [List.countP_append, hz0.2, (hzT _ _ _).2, (hzCred _).2, (hzD _ _).2,
        List.countP_cons, isSessionDelete]
    · intro b
      constructor <;> simp [execute, hacq, hc]
  | ok sid =>
    cases hp : rt.promptFails with
    | true =>
      simp only [execute, hacq, hc, hp]
      refine ⟨?_, ?_, ?_, ?_⟩
      · simp [List.countP_append, hz0.1, (hzT _ _ _).1, (hzCred _).1, (hzD _ _).1,
          List.countP_cons, isSessionCreate]
      · intro sid' _
        simp [List.countP_append, hz0.2, (hzT _ _ _).2, (hzCred _).2, (hzD _ _).2,
          List.countP_cons, isSessionDelete]
      · intro d hd; simp [hc] at hd
      · intro b
        constructor <;> simp [execute, hacq, hc, hp]
    | false =>
      cases he : consumeEvents sid now rt.events [] [] with
      | error e =>
        simp only [execute, hacq, hc, hp, he]
        refine ⟨?_, ?_, ?_, ?_⟩
        · simp [List.countP_append, hz0.1, (hzT _ _ _).1, (hzCred _).1, (hzD _ _).1,
            List.countP_cons, isSessionCreate]
        · intro sid' _
          simp [List.countP_append, hz0.2, (hzT _ _ _).2, (hzCred _).2, (hzD _ _).2,
            List.countP_cons, isSessionDelete]
        · intro d hd; simp [hc] at hd
        · intro b
          constructor <;> simp [execute, hacq, hc, hp, he]
      | ok acc =>
        simp only [execute, hacq, hc, hp, he]
        refine ⟨?_, ?_, ?_, ?_⟩
        · simp [List.countP_append, hz0.1, (hzT _ _ _).1, (hzCred _).1,
            List.countP_cons, isSessionCreate]
        · intro sid' _
          simp [List.countP_append, hz0.2, (hzT _ _ _).2, (hzCred _).2,
            List.countP_cons, isSessionDelete]
        · intro d hd; simp [hc] at hd
        · intro b
          constructor <;> simp [execute, hacq, hc, hp, he]

/-- Witness for C2 at the concrete healthy scenario: one create, one
delete, and a failing delete leaves the result unchanged. -/
theorem execute_one_session_one_delete_witness :
    (execute cfg0 rt0 0 st0 opts0).2.2.countP isSessionCreate = 1 ∧
    (execute cfg0 rt0 0 st0 opts0).2.2.countP isSessionDelete = 1 ∧
    (execute cfg0 { rt0 with deleteFails := true } 0 st0 opts0).1 =
      (execute cfg0 rt0 0 st0 opts0).1 := by
  have h := execute_one_session_one_delete cfg0 rt0 0 st0 opts0 pi0 st0' acts0' rfl
  exact ⟨h.1, h.2.1 "s1" rfl, (h.2.2.2 true).1⟩

/-! ## Helper lemmas: the event-consumption loop and its collected text -/

/-- Does this event terminate the loop successfully (a `session.idle` for
this session)? -/
def isMatchingIdle (sid : String) : Nat × Event → Bool
  | (_, .sessionIdle s) => s == some sid
  | _ => false

/-- The text delta an event contributes (JS condition
`props.delta && props.part?.type === "text"`). -/
def textDeltaOf : Nat × Event → Option String
  | (_, .messagePartUpdated delta part) =>
      if truthy delta && (partType part == some "text") then some (delta.getD "")
      else none
  | _ => none

/-- The text deltas received strictly before the first matching
`session.idle` event, in arrival order. -/
def deltasBeforeIdle (sid : String) (events : List (Nat × Event)) : List String :=
  (events.takeWhile (fun e => !isMatchingIdle sid e)).filterMap textDeltaOf

theorem consumeEvents_ok_texts (sid : String) (start : Nat) :
    ∀ (events : List (Nat × Event)) (acc : List String) (tcs : List ToolCallResult)
      (texts : List String) (tools : List ToolCallResult),
      consumeEvents sid start events acc tcs = .ok (texts, tools) →
      texts = acc ++ deltasBeforeIdle sid events := by
  intro events
  induction events with
  | nil =>
    intro acc tcs texts tools h
    simp only [consumeEvents, Except.ok.injEq, Prod.mk.injEq] at h
    simp [deltasBeforeIdle, ← h.1]
  | cons te rest ih =>
    obtain ⟨t, e⟩ := te
    intro acc tcs texts tools h
    by_cases htime : start + responseBudgetMs < t
    · simp [consumeEvents, htime] at h
    · cases e with
      | messagePartUpdated delta part =>
        simp only [consumeEvents, htime, if_false] at h
        have := ih _ _ _ _ h
        rw [this]
        by_cases hc : (truthy delta && (partType part == some "text")) = true
        · simp [deltasBeforeIdle, isMatchingIdle, textDeltaOf, hc, List.takeWhile,
            List.filterMap_cons]
        · simp only [Bool.not_eq_true] at hc
          simp [deltasBeforeIdle, isMatchingIdle, textDeltaOf, hc, List.takeWhile,
            List.filterMap_cons]
      | sessionIdle s =>
        by_cases hs : s = some sid
        · simp only [consumeEvents, htime, if_false, hs, if_true, Except.ok.injEq,
            Prod.mk.injEq] at h
          simp [deltasBeforeIdle, isMatchingIdle, hs, List.takeWhile, ← h.1]
        · have hsb : (s == some sid) = false := by simpa using hs
          simp only [consumeEvents, htime, if_false, hs] at h
          have := ih _ _ _ _ h
          rw [this]
          simp [deltasBeforeIdle, isMatchingIdle, hsb, List.takeWhile, textDeltaOf,
            List.filterMap_cons]
      | sessionError s err =>
        by_cases hs : s = some sid
        · simp [consumeEvents, htime, hs] at h
        · simp only [consumeEvents, htime, if_false, hs] at h
          have := ih _ _ _ _ h
          rw [this]
          simp [deltasBeforeIdle, isMatchingIdle, List.takeWhile, textDeltaOf,
            List.filterMap_cons]
      | other =>
        simp only [consumeEvents, htime, if_false] at h
        have := ih _ _ _ _ h
        rw [this]
        simp [deltasBeforeIdle, isMatchingIdle, List.takeWhile, textDeltaOf,
          List.filterMap_cons]

theorem deltasBeforeIdle_ne_empty (sid : String) (events : List (Nat × Event)) :
    ∀ d ∈ deltasBeforeIdle sid events, d ≠ "" := by
  intro d hd
  simp only [deltasBeforeIdle, List.mem_filterMap] at hd
  obtain ⟨e, _, he⟩ := hd
  obtain ⟨t, ev⟩ := e
  cases ev with
  | messagePartUpdated delta part =>
    simp only [textDeltaOf] at he
    by_cases hc : (truthy delta && (partType part == some "text")) = true
    · rw [if_pos hc] at he
      have hdelta : truthy delta = true := (Bool.and_eq_true _ _ |>.mp hc).1
      cases delta with
      | none => simp [truthy] at hdelta
      | some s =>
        simp only [truthy, ne_eq, decide_eq_true_eq] at hdelta
        simp only [Option.getD_some, Option.some.injEq] at he
        rw [← he]
        simpa using hdelta
    · rw [if_neg hc] at he; cases he
  | sessionIdle s => simp [textDeltaOf] at he
  | sessionError s err => simp [textDeltaOf] at he
  | other => simp [textDeltaOf] at he

theorem join_ne_empty_of_ne {l : List String} (hne : l ≠ [])
    (h : ∀ d ∈ l, d ≠ "") : String.join l ≠ "" := by
  cases l with
  | nil => exact absurd rfl hne
  | cons d rest =>
    rw [String.join_eq]
    intro hc
    have hdata : ((d :: rest).map String.data).flatten = [] := congrArg String.data hc
    simp only [List.map_cons, List.flatten_cons, List.append_eq_nil] at hdata
    exact h d (by simp) (by cases d; simpa using congrArg String.mk hdata.1)

/-! ## Claim C10: a successful execute never returns empty content -/

/-- **C10.** Whenever `execute` succeeds, the returned `content` is never
the empty string: it equals the concatenation, in arrival order, of the
(nonempty) text deltas received before the matching `session.idle` event
when at least one such delta arrived, and the literal
`"No response generated"` when none arrived. -/
theorem execute_content_never_empty
    (cfg : PoolConfig) (rt : Runtime) (now : Nat) (st : ExecState)
    (opts : ExecuteOptions) (r : ExecutorResult) (st' : ExecState) (tr : List Action)
    (hx : execute cfg rt now st opts = (.ok r, st', tr)) :
    r.content ≠ "" ∧
    (∀ sid, rt.sessionCreate = .ok sid →
      (deltasBeforeIdle sid rt.events ≠ [] →
        r.content = String.join (deltasBeforeIdle sid rt.events)) ∧
      (deltasBeforeIdle sid rt.events = [] →
        r.content = "No response generated")) := by
  rcases hacq : getOrCreateInstance cfg rt.portAvailable now st opts.tenantId
      opts.workspaceConfig with ⟨res1, st1, acts0⟩
  cases res1 with
  | error e => simp [execute, hacq] at hx
  | ok pi =>
    cases hc : rt.sessionCreate with
    | error d => simp [execute, hacq, hc] at hx
    | ok sid0 =>
      cases hp : rt.promptFails with
      | true => simp [execute, hacq, hc, hp] at hx
      | false =>
        cases he : consumeEvents sid0 now rt.events [] [] with
        | error e => simp [execute, hacq, hc, hp, he] at hx
        | ok acc =>
          obtain ⟨texts, tools⟩ := acc
          simp only [execute, hacq, hc, hp, he, Bool.false_eq_true, if_false,
            Prod.mk.injEq, Except.ok.injEq] at hx
          obtain ⟨hr, -, -⟩ := hx
          have htexts : texts = deltasBeforeIdle sid0 rt.events := by
            simpa using consumeEvents_ok_texts sid0 now rt.events [] [] texts tools he
          have hcontent : r.content =
              (if String.join texts = "" then "No response generated"
                else String.join texts) := by
            rw [← hr]
          constructor
          · rw [hcontent]
            split
            · decide
            · next hjoin => simpa using hjoin
          · intro sid hsid
            have hss : sid0 = sid := Except.ok.inj hsid
            subst hss
            constructor
            · intro hne
              have hjoin : String.join (deltasBeforeIdle sid0 rt.events) ≠ "" :=
                join_ne_empty_of_ne hne (deltasBeforeIdle_ne_empty sid0 rt.events)
              rw [hcontent, htexts, if_neg hjoin]
            · intro hnil
              rw [hcontent, htexts, hnil]
              simp [String.join]

/-- The pool state after the healthy scenario's request (timer armed). -/
def stF : ExecState :=
  { instances := [(("t", []),
      { port := 14096, workspacePath := "/tmp/oc/t-", lastUsed := 0,
        idleTimer := some 60000 })],
    nextPort := 14097 }

/-- The full action trace of the healthy scenario. -/
def trF : List Action :=
  acts0' ++
    [.armIdleTimer ("t", []) 60000, .sessionCreateAttempt,
      .promptSend "s1" "User: hi" "anthropic" "claude-sonnet-4-20250514" none,
      .sessionDeleteAttempt "s1" true]

/-- Witness for C10 at the healthy scenario: deltas `He`, `llo` produce the
non-empty content `"Hello"`, their concatenation. -/
theorem execute_content_never_empty_witness :
    ({ content := "Hello", toolCalls := [] } : ExecutorResult).content ≠ "" ∧
    ({ content := "Hello", toolCalls := [] } : ExecutorResult).content =
      String.join (deltasBeforeIdle "s1" rt0.events) := by
  have h := execute_content_never_empty cfg0 rt0 0 st0 opts0
    { content := "Hello", toolCalls := [] } stF trF rfl
  exact ⟨h.1, (h.2 "s1" rfl).1 (by decide)⟩

/-! ## Claim C5: shape of the non-streaming completion -/

/-- **C5.** The non-streaming response built from an executor result has a
single choice; when at least one tool call was recorded: `content` is
`null`, `finish_reason` is `"tool_calls"`, and `tool_calls` carries one
entry per recorded call in order, each with the synthesized
`call_<uuid-prefix>` id, type `"function"`, the call's name, and the
JSON-stringified input as `arguments`; with no recorded calls: `content`
is the result text, no `tool_calls`, `finish_reason` is `"stop"`.  The
usage fields are zero in both cases. -/
theorem renderChatCompletion_shapes
    (completionId : String) (created : Nat) (modelStr : String)
    (callUuid : Nat → String) (result : ExecutorResult) :
    (renderChatCompletion completionId created modelStr callUuid result).usage =
      { prompt_tokens := 0, completion_tokens := 0, total_tokens := 0 } ∧
    (renderChatCompletion completionId created modelStr callUuid result).choices.length
      = 1 ∧
    ∀ ch ∈ (renderChatCompletion completionId created modelStr callUuid result).choices,
      ch.index = 0 ∧ ch.message.role = "assistant" ∧
      (result.toolCalls ≠ [] →
        ch.message.content = none ∧ ch.finish_reason = "tool_calls" ∧
        ch.message.tool_calls = some (result.toolCalls.enum.map (fun p =>
          { id := "call_" ++ String.mk ((callUuid p.1).toList.take 8)
            type := "function"
            functionName := p.2.name
            functionArguments := Json.stringify p.2.input })) ∧
        (∀ tcs, ch.message.tool_calls = some tcs →
          tcs.length = result.toolCalls.length ∧
          ∀ (i : Nat) (tc : ToolCallResult), result.toolCalls[i]? = some tc →
            tcs[i]? = some
              { id := "call_" ++ String.mk ((callUuid i).toList.take 8)
                type := "function"
                functionName := tc.name
                functionArguments := Json.stringify tc.input })) ∧
      (result.toolCalls = [] →
        ch.message.content = some result.content ∧
        ch.message.tool_calls = none ∧ ch.finish_reason = "stop") := by
  refine ⟨rfl, rfl, ?_⟩
  intro ch hch
  cases hres : result.toolCalls with
  | nil =>
    simp only [renderChatCompletion, hres] at hch
    simp at hch
    subst hch
    exact ⟨rfl, rfl, fun hne => absurd rfl hne, fun _ => ⟨rfl, rfl, rfl⟩⟩
  | cons tc0 rest =>
    simp only [renderChatCompletion, hres] at hch
    simp at hch
    subst hch
    refine ⟨rfl, rfl, fun _ => ⟨rfl, rfl, rfl, ?_⟩, fun hnil => by cases hnil⟩
    intro tcs htcs
    have htcs' : tcs = (tc0 :: rest).enum.map (fun p =>
        ({ id := "call_" ++ String.mk ((callUuid p.1).toList.take 8)
           type := "function"
           functionName := p.2.name
           functionArguments := Json.stringify p.2.input } : ToolCall)) := by
      have := Option.some.inj htcs
      simpa using this.symm
    subst htcs'
    constructor
    · simp
    · intro i tc hi
      rw [List.getElem?_map, List.getElem?_enum, hi]
      rfl

/-- Executor result of the spec's tool-call example. -/
def wres5 : ExecutorResult :=
  { content := "", toolCalls := [⟨"get_weather", Json.obj [], none⟩] }

/-- The choice the tool-call example renders to. -/
def wch5 : ChatCompletionChoice :=
  { index := 0
    message :=
      { role := "assistant"
        content := none
        tool_calls := some [⟨"call_01234567", "function", "get_weather", "\x7b\x7d"⟩] }
    finish_reason := "tool_calls" }

/-- Witness for C5 at the spec's example `toolCalls=[{name:"get_weather",
input:{}}]`: content is null, a single synthesized tool-call entry with
stringified input, finish_reason `"tool_calls"`, zero usage. -/
theorem renderChatCompletion_shapes_witness :
    (renderChatCompletion "cid" 7 "m" (fun _ => "0123456789abc") wres5).usage =
      { prompt_tokens := 0, completion_tokens := 0, total_tokens := 0 } ∧
    (renderChatCompletion "cid" 7 "m" (fun _ => "0123456789abc") wres5).choices.length
      = 1 ∧
    wch5.message.content = none ∧
    wch5.finish_reason = "tool_calls" ∧
    wch5.message.tool_calls =
      some [⟨"call_01234567", "function", "get_weather", "\x7b\x7d"⟩] := by
  have h := renderChatCompletion_shapes "cid" 7 "m" (fun _ => "0123456789abc") wres5
  have hc : (renderChatCompletion "cid" 7 "m" (fun _ => "0123456789abc") wres5).choices
      = [wch5] := rfl
  have hm : wch5 ∈
      (renderChatCompletion "cid" 7 "m" (fun _ => "0123456789abc") wres5).choices := by
    rw [hc]; exact List.mem_singleton.mpr rfl
  have hch := h.2.2 wch5 hm
  have hne : wres5.toolCalls ≠ [] := by simp [wres5]
  refine ⟨h.1, h.2.1, (hch.2.2.1 hne).1, (hch.2.2.1 hne).2.1, ?_⟩
  rw [(hch.2.2.1 hne).2.2.1]
  rfl

/-! ## Claim C3: streaming chunk sequence (corrected)

The claim says one content-delta chunk is emitted **per text fragment** in
arrival order.  The code's `executeStreaming` instead awaits the full
`execute` (which concatenates the fragments) and yields a single `text`
chunk carrying the whole content, so the translator emits exactly one
content-delta chunk with the concatenation. -/

/-- **C3 counterexample.** In the healthy scenario whose fragments are
`["He", "llo"]`, the emitted sequence is role-chunk, one delta `"Hello"`,
stop-chunk — not role, delta `"He"`, delta `"llo"`, stop as claimed. -/
theorem streaming_per_fragment_counterexample :
    (execute cfg0 rt0 0 st0 opts0).1 = .ok { content := "Hello", toolCalls := [] } ∧
    streamedChunksOf "cid" 0 "m" { content := "Hello", toolCalls := [] } =
      [roleChunk "cid" 0 "m", contentChunk "cid" 0 "m" "Hello", stopChunk "cid" 0 "m"] ∧
    streamedChunksOf "cid" 0 "m" { content := "Hello", toolCalls := [] } ≠
      [roleChunk "cid" 0 "m", contentChunk "cid" 0 "m" "He",
        contentChunk "cid" 0 "m" "llo", stopChunk "cid" 0 "m"] := by
  have h2 : streamedChunksOf "cid" 0 "m" { content := "Hello", toolCalls := [] } =
      [roleChunk "cid" 0 "m", contentChunk "cid" 0 "m" "Hello",
        stopChunk "cid" 0 "m"] := rfl
  refine ⟨rfl, h2, ?_⟩
  intro h
  rw [h2] at h
  exact absurd (congrArg List.length h) (by decide)

/-- **C3 (amended).** For every streaming completion whose underlying
execution succeeds with non-empty content (always the case, see C10), the
emitted chunk sequence is exactly: one role-only chunk, then a single
content-delta chunk carrying the whole accumulated content (the
concatenation of the text fragments in arrival order), then one terminal
empty-delta chunk with `finish_reason = "stop"`; recorded tool-call chunks
are drained but rendered as nothing. -/
theorem streaming_coalesced_chunks (cid : String) (created : Nat) (modelStr : String)
    (result : ExecutorResult) (hne : result.content ≠ "") :
    streamedChunksOf cid created modelStr result =
      [roleChunk cid created modelStr,
        contentChunk cid created modelStr result.content,
        stopChunk cid created modelStr] := by
  unfold streamedChunksOf chatCompletionsStreamingChunks executeStreamingChunks
  rw [List.filterMap_append]
  have h1 : (result.toolCalls.map StreamChunk.toolCall).filterMap
      (renderStreamChunk cid created modelStr) = [] := by
    induction result.toolCalls with
    | nil => rfl
    | cons tc rest ih => simp [renderStreamChunk, ih]
  rw [h1]
  simp [renderStreamChunk, hne]

/-- Witness for C3 (amended) at content `"Hello"`. -/
theorem streaming_coalesced_chunks_witness :
    streamedChunksOf "cid" 0 "m" { content := "Hello", toolCalls := [] } =
      [roleChunk "cid" 0 "m", contentChunk "cid" 0 "m" "Hello",
        stopChunk "cid" 0 "m"] :=
  streaming_coalesced_chunks "cid" 0 "m" { content := "Hello", toolCalls := [] }
    (by decide)

/-! ## Helper lemmas for C1 -/

/-- The consumption loop only raises the timeout or an upstream session
error. -/
theorem consumeEvents_error_shape (sid : String) (start : Nat) :
    ∀ (events : List (Nat × Event)) (acc : List String) (tcs : List ToolCallResult)
      (e : ExecError), consumeEvents sid start events acc tcs = .error e →
      e = .responseTimeout ∨ ∃ err, e = .upstreamSessionError err := by
  intro events
  induction events with
  | nil => intro acc tcs e h; simp [consumeEvents] at h
  | cons te rest ih =>
    obtain ⟨t, ev⟩ := te
    intro acc tcs e h
    by_cases htime : start + responseBudgetMs < t
    · simp only [consumeEvents, htime, if_true, Except.error.injEq] at h
      exact Or.inl h.symm
    · cases ev with
      | messagePartUpdated delta part =>
        simp only [consumeEvents, htime, if_false] at h
        exact ih _ _ _ h
      | sessionIdle s =>
        by_cases hs : s = some sid
        · simp [consumeEvents, htime, hs] at h
        · simp only [consumeEvents, htime, if_false, hs] at h
          exact ih _ _ _ h
      | sessionError s err =>
        by_cases hs : s = some sid
        · simp only [consumeEvents, htime, if_false, hs, if_true,
            Except.error.injEq] at h
          exact Or.inr ⟨err, h.symm⟩
        · simp only [consumeEvents, htime, if_false, hs] at h
          exact ih _ _ _ h
      | other =>
        simp only [consumeEvents, htime, if_false] at h
        exact ih _ _ _ h

/-- A successful port search returns a candidate of the current draw window
and leaves the counter just past it. -/
theorem findAvailablePort_ok_mem {avail : Nat → Bool} {next n p nx : Nat}
    {tr : List Action} (h : findAvailablePort avail next n = (.ok p, nx, tr)) :
    p ∈ portCandidates next n ∧ nx = advancePort p := by
  have hspec := findAvailablePort_eq avail next n
  rw [h] at hspec
  cases hf : (portCandidates next n).find? avail with
  | some q =>
    rw [hf] at hspec
    simp only [Prod.mk.injEq, Except.ok.injEq] at hspec
    obtain ⟨h1, h2, -⟩ := hspec
    subst h1
    exact ⟨List.mem_of_find?_eq_some hf, h2⟩
  | none =>
    rw [hf] at hspec
    simp at hspec

/-! ## Claim C1: any bridge error evicts the owning instance in full
(corrected)

The eviction-in-full and re-raise hold unconditionally.  The claim's
final consequent — the next acquire is allocated a *different* port — does
not hold for every covered execution: an error against a *cached* instance
whose port the wrapping counter has meanwhile cycled back to is evicted
and then immediately re-allocated the same port (counterexample below).
It does hold whenever the erroring request itself created the instance,
because the counter sits just past the drawn port and the next 20
candidates of the 905-port ring cannot reach it. -/

/-- **C1 (amended).** For a request whose acquire succeeded, if `execute`
raises at any point between credential push and event consumption
(session-create failure, prompt dispatch failure, a runtime-reported
session error, or the response timeout — never port exhaustion, which
precedes acquire), then the owning pooled instance is evicted in full: its
idle timer is cleared, its server closed, its key removed from the
registry, its workspace directory removed — and the error is re-raised as
the request's result (`hx`); consequently the next acquire for that tenant
is a cache miss that creates a fresh instance, and whenever the erroring
request had itself created the instance (counter on the ring), that fresh
instance is on a different port. -/
theorem execute_error_evicts_in_full
    (cfg : PoolConfig) (rt : Runtime) (now : Nat) (st : ExecState)
    (opts : ExecuteOptions) (pi : PooledInstance) (st1 : ExecState)
    (acts0 : List Action) (e : ExecError) (st' : ExecState) (tr : List Action)
    (hacq : getOrCreateInstance cfg rt.portAvailable now st opts.tenantId
      opts.workspaceConfig = (.ok pi, st1, acts0))
    (hx : execute cfg rt now st opts = (.error e, st', tr)) :
    (∀ msg, e ≠ .portExhausted msg) ∧
    lookupA st'.instances (computeInstanceKey opts.tenantId opts.workspaceConfig)
      = none ∧
    Action.clearIdleTimer (computeInstanceKey opts.tenantId opts.workspaceConfig)
      ∈ tr ∧
    Action.closeServer pi.port pi.workspacePath ∈ tr ∧
    Action.removeDir pi.workspacePath ∈ tr ∧
    (lookupA st.instances (computeInstanceKey opts.tenantId opts.workspaceConfig)
        = none →
      14096 ≤ st.nextPort → st.nextPort ≤ 15000 →
      ∀ (avail₂ : Nat → Bool) (now₂ : Nat) (pi₂ : PooledInstance) (st₂ : ExecState)
        (acts₂ : List Action),
        getOrCreateInstance cfg avail₂ now₂ st' opts.tenantId opts.workspaceConfig =
          (.ok pi₂, st₂, acts₂) → pi₂.port ≠ pi.port) := by
  have hlook1 := getOrCreateInstance_ok_lookup hacq
  have hlook2 : lookupA (touchInstance cfg st1
      (computeInstanceKey opts.tenantId opts.workspaceConfig) now).1.instances
      (computeInstanceKey opts.tenantId opts.workspaceConfig) =
      some { pi with lastUsed := now, idleTimer := some (now + cfg.idleTimeoutMs) } := by
    simp only [touchInstance, hlook1]
    exact lookupA_updateA_self _ hlook1
  have hshut1 : lookupA (shutdownInstance (touchInstance cfg st1
      (computeInstanceKey opts.tenantId opts.workspaceConfig) now).1
      (computeInstanceKey opts.tenantId opts.workspaceConfig)).1.instances
      (computeInstanceKey opts.tenantId opts.workspaceConfig) = none := by
    simp only [shutdownInstance, hlook2]
    exact lookupA_removeA_self _ _
  have hshut2 : (shutdownInstance (touchInstance cfg st1
      (computeInstanceKey opts.tenantId opts.workspaceConfig) now).1
      (computeInstanceKey opts.tenantId opts.workspaceConfig)).2 =
      [.clearIdleTimer (computeInstanceKey opts.tenantId opts.workspaceConfig),
        .closeServer pi.port pi.workspacePath, .removeDir pi.workspacePath] := by
    simp only [shutdownInstance, hlook2]
    rfl
  have hport : lookupA st.instances
        (computeInstanceKey opts.tenantId opts.workspaceConfig) = none →
      14096 ≤ st.nextPort → st.nextPort ≤ 15000 →
      ∀ (avail₂ : Nat → Bool) (now₂ : Nat) (pi₂ : PooledInstance) (st₂ : ExecState)
        (acts₂ : List Action),
        getOrCreateInstance cfg avail₂ now₂ (shutdownInstance (touchInstance cfg st1
            (computeInstanceKey opts.tenantId opts.workspaceConfig) now).1
          (computeInstanceKey opts.tenantId opts.workspaceConfig)).1
          opts.tenantId opts.workspaceConfig = (.ok pi₂, st₂, acts₂) →
        pi₂.port ≠ pi.port := by
    intro hmiss hlo hhi avail₂ now₂ pi₂ st₂ acts₂ hacq₂
    rw [getOrCreateInstance] at hacq
    rw [hmiss] at hacq
    rcases hfp : findAvailablePort rt.portAvailable st.nextPort 20 with ⟨res, next', probes⟩
    rw [hfp] at hacq
    cases res with
    | error e0 => simp at hacq
    | ok port =>
      simp only [Prod.mk.injEq, Except.ok.injEq] at hacq
      obtain ⟨hpi, hst1, -⟩ := hacq
      have hmem := findAvailablePort_ok_mem hfp
      have hrange := mem_portCandidates_range hlo hhi hmem.1
      have hpp : pi.port = port := by rw [← hpi]
      have hnp : (shutdownInstance (touchInstance cfg st1
          (computeInstanceKey opts.tenantId opts.workspaceConfig) now).1
          (computeInstanceKey opts.tenantId opts.workspaceConfig)).1.nextPort
          = next' := by
        rw [shutdownInstance_nextPort, touchInstance_nextPort, ← hst1]
      rw [getOrCreateInstance] at hacq₂
      rw [hshut1] at hacq₂
      rcases hfp₂ : findAvailablePort avail₂ (shutdownInstance (touchInstance cfg st1
          (computeInstanceKey opts.tenantId opts.workspaceConfig) now).1
          (computeInstanceKey opts.tenantId opts.workspaceConfig)).1.nextPort 20
        with ⟨res₂, nx₂, pr₂⟩
      rw [hfp₂] at hacq₂
      cases res₂ with
      | error e₂ => simp at hacq₂
      | ok q =>
        simp only [Prod.mk.injEq, Except.ok.injEq] at hacq₂
        obtain ⟨hpi₂, -, -⟩ := hacq₂
        have hq : pi₂.port = q := by rw [← hpi₂]
        have hmem₂ := (findAvailablePort_ok_mem hfp₂).1
        rw [hnp, hmem.2] at hmem₂
        rw [hq, hpp]
        exact portCandidates_after_ne hrange.1 hrange.2 q hmem₂
  cases hc : rt.sessionCreate with
  | error detail =>
    simp only [execute, hacq, hc, Prod.mk.injEq, Except.error.injEq] at hx
    obtain ⟨h1, h2, h3⟩ := hx
    subst h1 h2 h3
    refine ⟨fun msg h => ExecError.noConfusion h, hshut1, ?_, ?_, ?_, hport⟩ <;>
      simp [List.mem_append, hshut2]
  | ok sid =>
    cases hp : rt.promptFails with
    | true =>
      simp only [execute, hacq, hc, hp, eq_self_iff_true, if_true, Prod.mk.injEq,
        Except.error.injEq] at hx
      obtain ⟨h1, h2, h3⟩ := hx
      subst h1 h2 h3
      refine ⟨fun msg h => ExecError.noConfusion h, hshut1, ?_, ?_, ?_, hport⟩ <;>
        simp [List.mem_append, hshut2]
    | false =>
      cases he : consumeEvents sid now rt.events [] [] with
      | error e0 =>
        simp only [execute, hacq, hc, hp, Bool.false_eq_true, if_false, he,
          Prod.mk.injEq, Except.error.injEq] at hx
        obtain ⟨h1, h2, h3⟩ := hx
        subst h1 h2 h3
        have hshape := consumeEvents_error_shape sid now rt.events [] [] e0 he
        refine ⟨?_, hshut1, ?_, ?_, ?_, hport⟩
        · intro msg h
          rcases hshape with rfl | ⟨err, rfl⟩ <;> exact ExecError.noConfusion h
        all_goals simp [List.mem_append, hshut2]
      | ok acc =>
        obtain ⟨texts, tools⟩ := acc
        simp only [execute, hacq, hc, hp, Bool.false_eq_true, if_false, he,
          Prod.mk.injEq] at hx
        exact absurd hx.1 (by simp)

/-- A pool whose cached instance for tenant `t` sits on port 14500 while
the wrapping counter has cycled back to 14500. -/
def stC : ExecState :=
  { instances := [(("t", []),
      { port := 14500, workspacePath := "/tmp/oc/t-", lastUsed := 0,
        idleTimer := none })],
    nextPort := 14500 }

/-- A runtime that reports a session error for `s1`. -/
def rtE : Runtime where
  portAvailable := fun _ => true
  sessionCreate := .ok "s1"
  promptFails := false
  events := [(0, .sessionError (some "s1") (some { message := some "boom" }))]
  deleteFails := false

/-- The pool state after the erroring request: empty registry. -/
def stE : ExecState := { instances := [], nextPort := 14097 }

/-- The full trace of the erroring request: acquire, touch, session,
best-effort delete, then the eviction (clear timer, close server, remove
workspace). -/
def trE : List Action :=
  acts0' ++
    [.armIdleTimer ("t", []) 60000, .sessionCreateAttempt,
      .promptSend "s1" "User: hi" "anthropic" "claude-sonnet-4-20250514" none,
      .sessionDeleteAttempt "s1" true,
      .clearIdleTimer ("t", []), .closeServer 14096 "/tmp/oc/t-",
      .removeDir "/tmp/oc/t-"]

/-- **C1 counterexample.** The claim's different-port consequent fails for
a cached instance: with the instance for tenant `t` cached on port 14500
and the wrapping counter back at 14500, a runtime session error evicts the
instance in full — yet the very next acquire for the same tenant draws the
freed port 14500 again. -/
theorem execute_error_same_port_counterexample :
    lookupA stC.instances ("t", []) =
      some { port := 14500, workspacePath := "/tmp/oc/t-", lastUsed := 0,
             idleTimer := none } ∧
    (execute cfg0 rtE 0 stC opts0).1 =
      .error (.upstreamSessionError (some { message := some "boom" })) ∧
    lookupA (execute cfg0 rtE 0 stC opts0).2.1.instances ("t", []) = none ∧
    (getOrCreateInstance cfg0 (fun _ => true) 5 (execute cfg0 rtE 0 stC opts0).2.1
        "t" wcfg0).1 =
      .ok { port := 14500, workspacePath := "/tmp/oc/t-", lastUsed := 5,
            idleTimer := none } :=
  ⟨rfl, rfl, rfl, rfl⟩

/-- Witness for C1: a session error for tenant `t` evicts the instance on
port 14096 in full, and the next acquire creates a fresh instance whose
port (14097) differs. -/
theorem execute_error_evicts_in_full_witness :
    lookupA stE.instances ("t", []) = none ∧
    Action.clearIdleTimer ("t", []) ∈ trE ∧
    Action.closeServer 14096 "/tmp/oc/t-" ∈ trE ∧
    Action.removeDir "/tmp/oc/t-" ∈ trE ∧
    ({ port := 14097, workspacePath := "/tmp/oc/t-", lastUsed := 5,
        idleTimer := none } : PooledInstance).port ≠ pi0.port := by
  have h := execute_error_evicts_in_full cfg0 rtE 0 st0 opts0 pi0 st0' acts0'
    (.upstreamSessionError (some { message := some "boom" })) stE trE rfl rfl
  refine ⟨h.2.1, h.2.2.1, h.2.2.2.1, h.2.2.2.2.1, ?_⟩
  exact h.2.2.2.2.2 rfl (by decide) (by decide) (fun _ => true) 5
    { port := 14097, workspacePath := "/tmp/oc/t-", lastUsed := 5, idleTimer := none }
    { instances := [(("t", []),
        { port := 14097, workspacePath := "/tmp/oc/t-", lastUsed := 5,
          idleTimer := none })],
      nextPort := 14098 }
    [.mkdirWorkspace "/tmp/oc/t-", .writeConfigFile "/tmp/oc/t-" none,
      .probePort 14097 true, .createServer 14097 "/tmp/oc/t-"]
    rfl

end Opencode
